import Mathlib

/-!
A shallow embedding of the PNG encoder in `png/writer.go` of `rmamba/image`,
together with theorems checking the specification's claims about it.

Modelling conventions:
* bytes are `Nat` values; unsigned 8/16/32-bit arithmetic inserts `% 256`,
  `% 65536`, `% 2^32` exactly where the Go code converts or overflows;
* the output sink (`io.Writer`) is modelled by a predicate `sink : Nat → Bool`
  telling whether the k-th `Write` call succeeds; a failed call writes nothing
  and produces the error `Err.sinkErr k`;
* the deflate compressor (`compress/zlib`) and the scanline conversion loops
  are external collaborators / byte producers whose outputs are taken as
  function parameters (`compress`, `compressRows`) or data (`FreshImg.rows`);
* Go code that can panic (slice-bounds violations) is embedded as an
  `Option`-valued function, `none` standing for the panic.
-/

namespace PngWriter

/-- Big-endian bytes of a 32-bit value, as written by `binary.BigEndian.PutUint32`
(the Go argument is first truncated to `uint32`). -/
def be32 (n : Nat) : List Nat :=
  let m := n % 2 ^ 32
  [m / 2 ^ 24, m / 2 ^ 16 % 256, m / 2 ^ 8 % 256, m % 256]

/-- Big-endian bytes of a 16-bit value (`binary.BigEndian.PutUint16`). -/
def be16 (n : Nat) : List Nat :=
  let m := n % 2 ^ 16
  [m / 2 ^ 8, m % 256]

/-- One bit-step of the reflected CRC-32 (IEEE polynomial), as in `hash/crc32`. -/
def crc32step (r : Nat) : Nat :=
  if r % 2 = 1 then (r / 2) ^^^ 0xEDB88320 else r / 2

/-- Eight bit-steps, i.e. one input byte folded into the CRC register. -/
def crc32byte (r b : Nat) : Nat :=
  crc32step (crc32step (crc32step (crc32step
    (crc32step (crc32step (crc32step (crc32step (r ^^^ b % 256))))))))

/-- CRC-32 (IEEE) of a byte list, as computed by `crc32.NewIEEE` / `Sum32`. -/
def crc32 (bs : List Nat) : Nat :=
  (bs.foldl crc32byte 0xFFFFFFFF) ^^^ 0xFFFFFFFF

/-- The error taxonomy of the writer.  `sinkErr k` records that the k-th
sink `Write` call failed; `FormatError`/`UnsupportedError` correspond to the
package's error types of the same names. -/
inductive Err where
  | format : String → Err
  | unsupported : List Nat → Err
  | sinkErr : Nat → Err
  deriving DecidableEq

/-- The mutable state of an encode session that the claims observe: the bytes
flushed to the sink, the number of sink `Write` calls so far, and the sticky
error (`encoder.err` in `writer.go`). -/
structure EncState where
  out : List Nat
  wcount : Nat
  err : Option Err
  deriving DecidableEq

def initState : EncState := { out := [], wcount := 0, err := none }

/-- One `Write` call on the sink: on success the bytes are appended, on failure
nothing is written and the sink error is recorded. -/
def sinkWrite (sink : Nat → Bool) (s : EncState) (b : List Nat) : EncState :=
  if sink s.wcount then { s with out := s.out ++ b, wcount := s.wcount + 1 }
  else { s with wcount := s.wcount + 1, err := some (Err.sinkErr s.wcount) }

-- Chunk tags (4 ASCII bytes each).
def nIHDR : List Nat := [73, 72, 68, 82]
def nPLTE : List Nat := [80, 76, 84, 69]
def nTRNS : List Nat := [116, 82, 78, 83]
def nIDAT : List Nat := [73, 68, 65, 84]
def nIEND : List Nat := [73, 69, 78, 68]
def nGAMA : List Nat := [103, 65, 77, 65]
def nCHRM : List Nat := [99, 72, 82, 77]
def nSRGB : List Nat := [115, 82, 71, 66]
def nTIME : List Nat := [116, 73, 77, 69]
def nPHYS : List Nat := [112, 72, 89, 115]
def nHIST : List Nat := [104, 73, 83, 84]
def nICCP : List Nat := [105, 67, 67, 80]
def nTEXT : List Nat := [116, 69, 88, 116]
def nZTXT : List Nat := [122, 84, 88, 116]
def nITXT : List Nat := [105, 84, 88, 116]

/-- The full byte frame of one chunk:
`length(4B BE) ++ tag ++ payload ++ CRC32(tag ++ payload)` (`writeChunk`). -/
def chunkBytes (name b : List Nat) : List Nat :=
  be32 b.length ++ name ++ b ++ be32 (crc32 (name ++ b))

/-- `(*encoder).writeChunk` (writer.go:99-127): no-op when the sticky error is
set; an `UnsupportedError` when the payload length does not fit the 32-bit
length field; otherwise three sink writes (header, payload, CRC footer), each
aborting on its own failure. -/
def writeChunk (sink : Nat → Bool) (s : EncState) (b : List Nat) (name : List Nat) : EncState :=
  if s.err.isSome then s
  else if 2 ^ 32 ≤ b.length then { s with err := some (Err.unsupported name) }
  else
    let s1 := sinkWrite sink s (be32 b.length ++ name)
    if s1.err.isSome then s1
    else
      let s2 := sinkWrite sink s1 b
      if s2.err.isSome then s2
      else sinkWrite sink s2 (be32 (crc32 (name ++ b)))

/-- `abs8` (writer.go:92-97): absolute value of a byte read as a signed int8. -/
def abs8 (d : Nat) : Nat :=
  if d < 128 then d else 256 - d

/-- Byte subtraction `a - b` on `uint8` operands (arithmetic modulo 256). -/
def sub8 (a b : Nat) : Nat := (a + 256 - b % 256) % 256

/-- Modelled from the spec: the Paeth predictor `paeth(a,b,c)` returns
whichever of a, b, c is closest to `a+b-c`, ties resolved in the order
a, b, c (its Go code lives in the package's reader file, not under `src/`). -/
def paeth (a b c : Nat) : Nat :=
  let p : Int := (a : Int) + (b : Int) - (c : Int)
  let pa := (p - a).natAbs
  let pb := (p - b).natAbs
  let pc := (p - c).natAbs
  if pa ≤ pb ∧ pa ≤ pc then a else if pb ≤ pc then b else c

-- PNG filter-type constants.  `writeImage` uses the filter type both as the
-- tag byte `cr[i][0] = uint8(i)` and as the index into `cr`, which fixes the
-- values to the PNG enumeration named in the writer's comments
-- (ftNone, ftSub, ftUp, ftAverage, ftPaeth).
def ftNone : Nat := 0
def ftSub : Nat := 1
def ftUp : Nat := 2
def ftAverage : Nat := 3
def ftPaeth : Nat := 4
def nFilter : Nat := 5

/-- Byte `i` of a row, with reads beyond the row defaulting to 0 (the Go code
never performs such reads under its in-bounds preconditions). -/
def gB (l : List Nat) (i : Nat) : Nat := l.getD i 0

/-- The Up candidate row: `cdat2[i] = cdat0[i] - pdat[i]` (writer.go:224-228). -/
def upRow (cur prev : List Nat) : List Nat :=
  (List.range cur.length).map fun i => sub8 (gB cur i) (gB prev i)

/-- The Sub candidate row: `cdat1[i] = cdat0[i]` for `i < bpp`, then
`cdat1[i] = cdat0[i] - cdat0[i-bpp]` (writer.go:263-275). -/
def subRow (cur : List Nat) (bpp : Nat) : List Nat :=
  (List.range cur.length).map fun i =>
    if i < bpp then gB cur i else sub8 (gB cur i) (gB cur (i - bpp))

/-- The Average candidate row: `cdat3[i] = cdat0[i] - pdat[i]/2` for `i < bpp`,
then `cdat3[i] = cdat0[i] - uint8((int(cdat0[i-bpp])+int(pdat[i]))/2)`
(writer.go:281-293); note the interior sum is taken in `int`, without any
modulo-256 reduction, before halving. -/
def avgRow (cur prev : List Nat) (bpp : Nat) : List Nat :=
  (List.range cur.length).map fun i =>
    if i < bpp then sub8 (gB cur i) (gB prev i / 2)
    else sub8 (gB cur i) ((gB cur (i - bpp) + gB prev i) / 2)

/-- The Paeth candidate row: `cdat4[i] = cdat0[i] - pdat[i]` for `i < bpp`,
then `cdat4[i] = cdat0[i] - paeth(cdat0[i-bpp], pdat[i], pdat[i-bpp])`
(writer.go:233-240). -/
def paethRow (cur prev : List Nat) (bpp : Nat) : List Nat :=
  (List.range cur.length).map fun i =>
    if i < bpp then sub8 (gB cur i) (gB prev i)
    else sub8 (gB cur i) (paeth (gB cur (i - bpp)) (gB prev i) (gB prev (i - bpp)))

/-- Sum of `abs8` over a candidate row. -/
def sumAbs (l : List Nat) : Nat := (l.map abs8).sum

/-- The early-exit accumulation loop shared by the Paeth/None/Sub/Average
candidates: terms are added one by one and the loop stops as soon as the
running sum reaches `best` (`if sum >= best: break`).  Returns the final sum
and the number of terms consumed (= byte positions written by the loop body,
since the write precedes the check). -/
def earlyRun (best : Nat) : List Nat → Nat → Nat × Nat
  | [], acc => (acc, 0)
  | t :: rest, acc =>
    let s := acc + t
    if best ≤ s then (s, 1)
    else
      let r := earlyRun best rest s
      (r.1, r.2 + 1)

/-- One Paeth/Sub/Average candidate of `filter`: the `i < bpp` part runs
without an exit check, the rest through the early-exit loop.  Returns the
candidate's (early) sum and the candidate's buffer after the loop: the bytes
actually written followed by the untouched tail of the previous buffer
contents `old`. -/
def candRun (row old : List Nat) (bpp best : Nat) : Nat × List Nat :=
  let pre := sumAbs (row.take bpp)
  let r := earlyRun best ((row.drop bpp).map abs8) pre
  let w := bpp + r.2
  (r.1, row.take w ++ old.drop w)

/-- The buffers of `filter` after it returns: the chosen index and the five
candidate buffers (cdat0..cdat4, without the leading tag byte).  `cdat2` (Up)
is always fully written; `cdat0` (None) is never written. -/
structure FilterOut where
  fidx : Nat
  c0 : List Nat
  c1 : List Nat
  c2 : List Nat
  c3 : List Nat
  c4 : List Nat
  deriving DecidableEq

/-- `filter` (writer.go:210-299): candidates are tried in the fixed order
Up, Paeth, None, Sub, Average; the incumbent is replaced only on a strictly
smaller sum; Paeth/None/Sub/Average abort their byte loop as soon as the
running sum reaches the incumbent's.  `o1`, `o3`, `o4` are the previous
contents of the Sub/Average/Paeth buffers (the Up buffer is always overwritten
in full and its previous contents are irrelevant). -/
def filterGo (cur prev o1 o3 o4 : List Nat) (bpp : Nat) : FilterOut :=
  let upR := upRow cur prev
  let best0 := sumAbs upR
  let p := candRun (paethRow cur prev bpp) o4 bpp best0
  let best1 := if p.1 < best0 then p.1 else best0
  let f1 := if p.1 < best0 then ftPaeth else ftUp
  let nn := earlyRun best1 (cur.map abs8) 0
  let best2 := if nn.1 < best1 then nn.1 else best1
  let f2 := if nn.1 < best1 then ftNone else f1
  let sb := candRun (subRow cur bpp) o1 bpp best2
  let best3 := if sb.1 < best2 then sb.1 else best2
  let f3 := if sb.1 < best2 then ftSub else f2
  let av := candRun (avgRow cur prev bpp) o3 bpp best3
  let f4 := if av.1 < best3 then ftAverage else f3
  { fidx := f4, c0 := cur, c1 := sb.2, c2 := upR, c3 := av.2, c4 := p.2 }

/-- The row handed to the compressor: `cr[f]`, whose byte 0 is the filter tag
(`e.cr[i][0] = uint8(i)`, writer.go:358). -/
def selectedRow (o : FilterOut) : List Nat :=
  o.fidx ::
    (if o.fidx = ftSub then o.c1
     else if o.fidx = ftUp then o.c2
     else if o.fidx = ftAverage then o.c3
     else if o.fidx = ftPaeth then o.c4
     else o.c0)

/-- The fully transformed row of a given filter type (the reference the spec
describes: each candidate's complete transform). -/
def transformRow (fi : Nat) (cur prev : List Nat) (bpp : Nat) : List Nat :=
  if fi = ftSub then subRow cur bpp
  else if fi = ftUp then upRow cur prev
  else if fi = ftAverage then avgRow cur prev bpp
  else if fi = ftPaeth then paethRow cur prev bpp
  else cur

/-- Keep the incumbent `(index, sum)` unless the candidate's sum is strictly
smaller. -/
def betterOf (inc cand : Nat × Nat) : Nat × Nat :=
  if cand.2 < inc.2 then cand else inc

/-- The exhaustive filter selection the spec describes: full `abs8` sums of
all five candidates, tried in the priority order Up, Paeth, None, Sub,
Average, a candidate replacing the incumbent only on a strictly smaller sum. -/
def specFilterIdx (cur prev : List Nat) (bpp : Nat) : Nat :=
  (betterOf (betterOf (betterOf (betterOf
      (ftUp, sumAbs (upRow cur prev))
      (ftPaeth, sumAbs (paethRow cur prev bpp)))
      (ftNone, sumAbs cur))
      (ftSub, sumAbs (subRow cur bpp)))
      (ftAverage, sumAbs (avgRow cur prev bpp))).1

-- Modelled from the spec: the color-bitdepth mode labels (the `cb*` constants
-- are declared in the package's reader file, which is not under `src/`; the
-- writer only needs them to be distinct tags).
def cbG8 : Nat := 1
def cbGA8 : Nat := 2
def cbTC8 : Nat := 3
def cbP1 : Nat := 4
def cbP2 : Nat := 5
def cbP4 : Nat := 6
def cbP8 : Nat := 7
def cbTCA8 : Nat := 8
def cbG16 : Nat := 9
def cbGA16 : Nat := 10
def cbTC16 : Nat := 11
def cbTCA16 : Nat := 12

-- Modelled from the spec: PNG color-type bytes written into IHDR (declared in
-- the package's reader file; the values are fixed by the PNG format).
def ctGrayscale : Nat := 0
def ctTrueColor : Nat := 2
def ctPaletted : Nat := 3
def ctTrueColorAlpha : Nat := 6

/-- `bitsPerPixel` for each mode (writer.go:320-343). -/
def bitsPerPixel (cb : Nat) : Nat :=
  if cb = cbG8 then 8 else if cb = cbTC8 then 24
  else if cb = cbP8 then 8 else if cb = cbP4 then 4
  else if cb = cbP2 then 2 else if cb = cbP1 then 1
  else if cb = cbTCA8 then 32 else if cb = cbTC16 then 48
  else if cb = cbTCA16 then 64 else if cb = cbG16 then 16 else 0

/-- The (bit depth, color type) pair written into IHDR bytes 8-9
(writer.go:134-165). -/
def ihdrDepthColor (cb : Nat) : Nat × Nat :=
  if cb = cbG8 then (8, ctGrayscale) else if cb = cbTC8 then (8, ctTrueColor)
  else if cb = cbP8 then (8, ctPaletted) else if cb = cbP4 then (4, ctPaletted)
  else if cb = cbP2 then (2, ctPaletted) else if cb = cbP1 then (1, ctPaletted)
  else if cb = cbTCA8 then (8, ctTrueColorAlpha)
  else if cb = cbG16 then (16, ctGrayscale)
  else if cb = cbTC16 then (16, ctTrueColor)
  else if cb = cbTCA16 then (16, ctTrueColorAlpha) else (0, 0)

-- Package compression levels (writer.go:58-68) and their zlib mapping
-- (`levelToZlib`, writer.go:865-878).  The zlib numeric levels are those of
-- `compress/flate`: DefaultCompression -1, NoCompression 0, BestSpeed 1,
-- BestCompression 9.
def zlibDefault : Int := -1
def zlibNone : Int := 0
def zlibBestSpeed : Int := 1
def zlibBestCompression : Int := 9

/-- `levelToZlib` (writer.go:865-878); argument is the package-level
`CompressionLevel` (0 default, -1 none, -2 best speed, -3 best compression). -/
def levelToZlib (l : Int) : Int :=
  if l = 0 then zlibDefault
  else if l = -1 then zlibNone
  else if l = -2 then zlibBestSpeed
  else if l = -3 then zlibBestCompression
  else zlibDefault

/-- The filter-skip condition of `writeImage` (writer.go:505-511): filtering
runs only when compression is on and the mode is not one of the four paletted
modes.  `level` is the zlib level (`zlibNone = 0` disables compression). -/
def filterOn (cb : Nat) (level : Int) : Bool :=
  level ≠ zlibNone && cb ≠ cbP8 && cb ≠ cbP4 && cb ≠ cbP2 && cb ≠ cbP1

/-- One row of `writeImage`'s per-row loop (writer.go:501-516): either the
filter selector runs and its chosen tagged row is emitted, or the row is
emitted unfiltered under the None tag (`f := ftNone`). -/
def encodeRow (cb : Nat) (level : Int) (cur prev o1 o3 o4 : List Nat) (bpp : Nat) : List Nat :=
  if filterOn cb level then selectedRow (filterGo cur prev o1 o3 o4 bpp)
  else ftNone :: cur

/-- The per-row loop of `writeImage` over all rows, threading the previous-row
buffer (`pr, cr[0] = cr[0], pr`) and the three partially-overwritten candidate
buffers across rows. -/
def rowsLoop (cb : Nat) (level : Int) (bpp : Nat) :
    List (List Nat) → List Nat → List Nat → List Nat → List Nat → List (List Nat)
  | [], _, _, _, _ => []
  | cur :: rest, prev, g1, g3, g4 =>
    let o := filterGo cur prev g1 g3 g4 bpp
    encodeRow cb level cur prev g1 g3 g4 bpp ::
      (if filterOn cb level then rowsLoop cb level bpp rest cur o.c1 o.c3 o.c4
       else rowsLoop cb level bpp rest cur g1 g3 g4)

/-- The filtered scanline stream fed to the zlib writer, starting from the
zeroed previous-row buffer and freshly allocated (zeroed) candidate buffers
(writer.go:350-367). -/
def filteredRows (cb : Nat) (level : Int) (rows : List (List Nat)) (n : Nat) : List (List Nat) :=
  let z := List.replicate n 0
  rowsLoop cb level (bitsPerPixel cb / 8) rows z z z z

/-- A palette entry after `color.NRGBAModel` conversion: non-premultiplied
R, G, B, A bytes. -/
structure PaletteEntry where
  r : Nat
  g : Nat
  b : Nat
  a : Nat
  deriving DecidableEq

/-- The PLTE payload: three bytes R,G,B per entry (writer.go:178-188). -/
def plteBytes (p : List PaletteEntry) : List Nat :=
  (p.map fun c => [c.r, c.g, c.b]).flatten

/-- The `last` variable of `writePLTEAndTRNS`: index of the last palette entry
whose alpha is not 0xff, if any (writer.go:177-187). -/
def lastNonOpaque (p : List PaletteEntry) : Option Nat :=
  (List.range p.length).foldl
    (fun acc i => if (gA p i) ≠ 255 then some i else acc) none
where
  gA (p : List PaletteEntry) (i : Nat) : Nat := ((p.getD i ⟨0, 0, 0, 0⟩).a)

/-- `(*encoder).writePLTEAndTRNS` (writer.go:172-192): a palette length
outside [1, 256] sets a `FormatError` (without consulting the sticky error
first); otherwise PLTE is written, followed by a tRNS chunk holding the alpha
bytes of indices 0..last-non-opaque, emitted only when some entry is not fully
opaque. -/
def writePLTEAndTRNS (sink : Nat → Bool) (s : EncState) (p : List PaletteEntry) : EncState :=
  if p.length < 1 ∨ 256 < p.length then
    { s with err := some (Err.format "bad palette length") }
  else
    let s1 := writeChunk sink s (plteBytes p) nPLTE
    match lastNonOpaque p with
    | none => s1
    | some last => writeChunk sink s1 ((p.map fun c => c.a).take (last + 1)) nTRNS

-- Metadata model (`Metadata` of this package): each field is independently
-- optional; the ICC and XMP objects' `Encode` hooks and the zlib compression
-- helper `pngCompress` are external collaborators, modelled by the bytes they
-- return (hook and compressor are assumed not to fail) and by the `compress`
-- parameter respectively.  `pngCompress` always reports compression method 0.

structure Chroma where
  whiteX : Nat
  whiteY : Nat
  redX : Nat
  redY : Nat
  greenX : Nat
  greenY : Nat
  blueX : Nat
  blueY : Nat
  deriving DecidableEq

structure TimeRec where
  year : Nat
  month : Nat
  day : Nat
  hour : Nat
  minute : Nat
  second : Nat
  deriving DecidableEq

structure DimRec where
  x : Nat
  y : Nat
  unit : Nat
  deriving DecidableEq

inductive EType where
  | text
  | ztext
  | itext
  deriving DecidableEq

structure TextEntry where
  key : List Nat
  value : List Nat
  languageTag : List Nat
  translatedKey : List Nat
  entryType : EType
  deriving DecidableEq

structure Metadata where
  gamma : Option Nat
  chroma : Option Chroma
  srgbIntent : Option Nat
  lastModified : Option TimeRec
  iccName : List Nat
  icc : Option (List Nat)
  rawIcc : List Nat
  dimension : Option DimRec
  histogram : Option (List Nat)
  rawXmp : Option (List Nat)
  xmp : Option (List Nat)
  text : List TextEntry
  deriving DecidableEq

-- Modelled from the spec: the reserved key under which XMP is written as an
-- iTXt entry ("XML:com.adobe.xmp"; the constant is declared outside
-- `writer.go`).
def xmpTextKey : List Nat :=
  [88, 77, 76, 58, 99, 111, 109, 46, 97, 100, 111, 98, 101, 46, 120, 109, 112]

/-- `maybeWriteGAMA` (writer.go:526-539). -/
def maybeWriteGAMA (sink : Nat → Bool) (m : Metadata) (s : EncState) : EncState :=
  match m.gamma with
  | none => s
  | some g => if s.err.isSome then s else writeChunk sink s (be32 g) nGAMA

/-- `maybeWriteCHRM` (writer.go:824-844). -/
def maybeWriteCHRM (sink : Nat → Bool) (m : Metadata) (s : EncState) : EncState :=
  match m.chroma with
  | none => s
  | some c =>
    if s.err.isSome then s
    else writeChunk sink s
      (be32 c.whiteX ++ be32 c.whiteY ++ be32 c.redX ++ be32 c.redY ++
       be32 c.greenX ++ be32 c.greenY ++ be32 c.blueX ++ be32 c.blueY) nCHRM

/-- `maybeWriteSRGB` (writer.go:726-739). -/
def maybeWriteSRGB (sink : Nat → Bool) (m : Metadata) (s : EncState) : EncState :=
  match m.srgbIntent with
  | none => s
  | some i => if s.err.isSome then s else writeChunk sink s [i % 256] nSRGB

/-- `maybeWriteTIME` (writer.go:594-610); the stored time is already UTC. -/
def maybeWriteTIME (sink : Nat → Bool) (m : Metadata) (s : EncState) : EncState :=
  match m.lastModified with
  | none => s
  | some t =>
    if s.err.isSome then s
    else writeChunk sink s
      (be16 t.year ++ [t.month % 256, t.day % 256, t.hour % 256,
                       t.minute % 256, t.second % 256]) nTIME

/-- `maybeWritePHYS` (writer.go:573-588). -/
def maybeWritePHYS (sink : Nat → Bool) (m : Metadata) (s : EncState) : EncState :=
  match m.dimension with
  | none => s
  | some d =>
    if s.err.isSome then s
    else writeChunk sink s (be32 d.x ++ be32 d.y ++ [d.unit % 256]) nPHYS

/-- `maybeWriteICCP` (writer.go:775-820): bails when neither an ICC object nor
a raw blob is present; the raw blob, when present, is assigned to a local but
an iCCP chunk is only written in the `m.icc != nil` branch, from the freshly
encoded and compressed profile (name ++ NUL ++ method byte 0 ++ compressed). -/
def maybeWriteICCP (sink : Nat → Bool) (compress : List Nat → List Nat)
    (m : Metadata) (s : EncState) : EncState :=
  if s.err.isSome then s
  else if m.icc = none ∧ m.rawIcc = [] then s
  else
    match m.icc with
    | some obj => writeChunk sink s (m.iccName ++ [0, 0] ++ compress obj) nICCP
    | none => s

/-- `maybeWriteTEXT` (writer.go:613-628): payload `key ++ NUL ++ value` in a
freshly allocated buffer of exactly the payload size.  (The Go loop ranges
over the value string rune-by-rune at byte indices; the embedding covers
single-byte text values.) -/
def maybeWriteTEXT (sink : Nat → Bool) (t : TextEntry) (s : EncState) : EncState :=
  if s.err.isSome then s
  else writeChunk sink s (t.key ++ [0] ++ t.value) nTEXT

/-- `maybeWriteZTXT` (writer.go:631-653): the payload is assembled inside the
session's fixed 1024-byte scratch `e.tmp`; each slice operation whose bound
exceeds 1024 panics, which the embedding renders as `none`.  In order:
`e.tmp[:len(key)]` (panics when 1024 < len key), `e.tmp[len(key)] = 0`
(panics when 1024 ≤ len key), `e.tmp[len(key)+1] = method` (panics when
1024 ≤ len key + 1), and finally `e.tmp[:len(key)+2+len(val)]` (panics when
that length exceeds 1024; Go's `copy` itself truncates and cannot panic). -/
def maybeWriteZTXT (sink : Nat → Bool) (compress : List Nat → List Nat)
    (s : EncState) (key value : List Nat) : Option EncState :=
  if s.err.isSome then some s
  else
    let val := compress value
    if 1024 < key.length then none
    else if 1024 ≤ key.length then none
    else if 1024 ≤ key.length + 1 then none
    else if 1024 < key.length + 2 + val.length then none
    else some (writeChunk sink s (key ++ [0, 0] ++ val) nZTXT)

/-- The iTXt payload (writer.go:667-703): key, NUL, compression flag 1,
compression method 0, language tag, NUL, translated key, NUL, compressed
value. -/
def itxtPayload (compress : List Nat → List Nat) (t : TextEntry) : List Nat :=
  t.key ++ [0, 1, 0] ++ t.languageTag ++ [0] ++ t.translatedKey ++ [0] ++
    compress t.value

/-- `maybeWriteITXT` (writer.go:656-707). -/
def maybeWriteITXT (sink : Nat → Bool) (compress : List Nat → List Nat)
    (t : TextEntry) (s : EncState) : EncState :=
  if s.err.isSome then s
  else writeChunk sink s (itxtPayload compress t) nITXT

/-- The iTXt entry `maybeWriteXMP` builds: the reserved key and the XMP text,
the encoded object taking precedence over the raw string. -/
def xmpEntry (m : Metadata) : TextEntry :=
  { key := xmpTextKey,
    value :=
      match m.xmp with
      | some enc2 => enc2
      | none => match m.rawXmp with | some t => t | none => [],
    languageTag := [], translatedKey := [], entryType := EType.itext }

/-- `maybeWriteXMP` (writer.go:543-569): XMP text (the encoded object taking
precedence over the raw string) written as an iTXt entry under the reserved
key. -/
def maybeWriteXMP (sink : Nat → Bool) (compress : List Nat → List Nat)
    (m : Metadata) (s : EncState) : EncState :=
  if m.rawXmp = none ∧ m.xmp = none then s
  else if s.err.isSome then s
  else maybeWriteITXT sink compress (xmpEntry m) s

/-- `maybeWriteHIST` (writer.go:709-722): big-endian u16 per histogram
entry. -/
def maybeWriteHIST (sink : Nat → Bool) (md : Option Metadata) (s : EncState) : EncState :=
  match md with
  | none => s
  | some m =>
    match m.histogram with
    | none => s
    | some h =>
      if s.err.isSome then s else writeChunk sink s ((h.map be16).flatten) nHIST

/-- Dispatch of one text entry per its declared type (writer.go:1011-1020). -/
def textDispatch (sink : Nat → Bool) (compress : List Nat → List Nat)
    (t : TextEntry) (s : EncState) : Option EncState :=
  match t.entryType with
  | EType.text => some (maybeWriteTEXT sink t s)
  | EType.ztext => maybeWriteZTXT sink compress s t.key t.value
  | EType.itext => some (maybeWriteITXT sink compress t s)

/-- The loop over the ordered text entries. -/
def textLoop (sink : Nat → Bool) (compress : List Nat → List Nat) :
    List TextEntry → EncState → Option EncState
  | [], s => some s
  | t :: ts, s => (textDispatch sink compress t s).bind (textLoop sink compress ts)

/-- The metadata chunk block of `EncodeExtended` (writer.go:1002-1021), in
source order: gAMA, cHRM, sRGB, tIME, iCCP, pHYs, XMP-as-iTXt, then the
ordered text entries. -/
def mdChunks (sink : Nat → Bool) (compress : List Nat → List Nat)
    (m : Metadata) (s : EncState) : Option EncState :=
  textLoop sink compress m.text
    (maybeWriteXMP sink compress m
      (maybeWritePHYS sink m
        (maybeWriteICCP sink compress m
          (maybeWriteTIME sink m
            (maybeWriteSRGB sink m
              (maybeWriteCHRM sink m
                (maybeWriteGAMA sink m s)))))))

-- The source image model.  The pixel accessors, color models and palette of
-- the external `image` package are abstracted to exactly what `EncodeExtended`
-- and `opaque` consult: the declared color model, whether the image implements
-- `image.PalettedImage`, the optional cheap `Opaque()` capability, the
-- alpha samples of all pixels, the bounds, and the converted scanline bytes
-- (the output of the per-mode conversion loops, writer.go:374-499, which no
-- claim is about).

inductive CModel where
  | gray
  | gray16
  | rgba
  | nrgba
  | alphaModel
  | palette : List PaletteEntry → CModel
  | other
  deriving DecidableEq

structure FreshImg where
  width : Int
  height : Int
  isPalettedImage : Bool
  colorModel : CModel
  opaqueDecl : Option Bool
  alphas : List Nat
  rows : List (List Nat)
  deriving DecidableEq

/-- `opaque` (writer.go:75-89): use the image's own `Opaque()` capability when
implemented, otherwise scan every pixel's 16-bit alpha. -/
def opaqueCheck (m : FreshImg) : Bool :=
  match m.opaqueDecl with
  | some b => b
  | none => m.alphas.all fun a => a = 0xffff

/-- The palette the encoder uses: only a `PalettedImage` whose color model is
a `color.Palette` exposes one (writer.go:957-960). -/
def palOf (m : FreshImg) : Option (List PaletteEntry) :=
  if m.isPalettedImage then
    match m.colorModel with
    | CModel.palette p => some p
    | _ => none
  else none

/-- The mode selection of `EncodeExtended` (writer.go:961-990). -/
def selectCB (m : FreshImg) : Nat :=
  match palOf m with
  | some pal =>
    if pal.length ≤ 2 then cbP1
    else if pal.length ≤ 4 then cbP2
    else if pal.length ≤ 16 then cbP4
    else cbP8
  | none =>
    match m.colorModel with
    | CModel.gray => cbG8
    | CModel.gray16 => cbG16
    | CModel.rgba => if opaqueCheck m then cbTC8 else cbTCA8
    | CModel.nrgba => if opaqueCheck m then cbTC8 else cbTCA8
    | CModel.alphaModel => if opaqueCheck m then cbTC8 else cbTCA8
    | _ => if opaqueCheck m then cbTC16 else cbTCA16

/-- A source image: fresh (live pixels) or deferred (captured IHDR/PLTE/tRNS/
IDAT chunk blobs, each still carrying its original trailing 4-byte CRC). -/
inductive Img where
  | fresh : FreshImg → Img
  | deferredImg : List Nat → Option (List Nat) → Option (List Nat) →
      Option (List Nat) → Img

/-- A captured chunk blob minus its trailing 4-byte CRC
(`di.ihdr[:len(di.ihdr)-4]`). -/
def dropCRC (b : List Nat) : List Nat := b.take (b.length - 4)

/-- The IHDR payload of a fresh image (writer.go:129-169). -/
def ihdrPayload (f : FreshImg) : List Nat :=
  let dc := ihdrDepthColor (selectCB f)
  be32 f.width.toNat ++ be32 f.height.toNat ++ [dc.1, dc.2, 0, 0, 0]

/-- `writeIDATs` / `writeImage`'s chunk emission (writer.go:847-861): each
block the compressor+buffer stack hands to `(*encoder).Write` becomes one IDAT
chunk; nothing runs when the sticky error is already set. -/
def writeIDATs (sink : Nat → Bool) (blocks : List (List Nat)) (s : EncState) : EncState :=
  if s.err.isSome then s
  else blocks.foldl (fun st b => writeChunk sink st b nIDAT) s

/-- `writeIEND` (writer.go:880). -/
def writeIEND (sink : Nat → Bool) (s : EncState) : EncState :=
  writeChunk sink s [] nIEND

/-- The PNG signature bytes (`pngHeader`, declared in the package's reader
file; fixed by the PNG format). -/
def pngHeaderBytes : List Nat := [137, 80, 78, 71, 13, 10, 26, 10]

/-- One optional transplanted chunk of the deferred path: present blobs are
written (minus their original trailing CRC), absent ones are skipped. -/
def optChunk (sink : Nat → Bool) (o : Option (List Nat)) (nm : List Nat)
    (s : EncState) : EncState :=
  match o with
  | some b => writeChunk sink s (dropCRC b) nm
  | none => s

/-- The (panic-free) tail of `EncodeExtended` after the metadata block
(writer.go:1023-1047): PLTE + tRNS (fresh palette or transplanted blobs),
hIST, the IDAT stream (computed or transplanted), and IEND. -/
def bodyTail (sink : Nat → Bool) (clevel : Int)
    (compressRows : List (List Nat) → List (List Nat))
    (img : Img) (md : Option Metadata) (s2 : EncState) : EncState :=
  let s3 :=
    match img with
    | Img.fresh f =>
      match palOf f with
      | some p => writePLTEAndTRNS sink s2 p
      | none => s2
    | Img.deferredImg _ plte trns _ =>
      optChunk sink trns nTRNS (optChunk sink plte nPLTE s2)
  let s4 := maybeWriteHIST sink md s3
  let s5 :=
    match img with
    | Img.fresh f =>
      let cb := selectCB f
      let n := (bitsPerPixel cb * f.width.toNat + 7) / 8
      writeIDATs sink
        (compressRows (filteredRows cb (levelToZlib clevel) f.rows n)) s4
    | Img.deferredImg _ _ _ idat => optChunk sink idat nIDAT s4
  writeIEND sink s5

/-- Everything `EncodeExtended` does after the signature write
(writer.go:994-1048): IHDR (fresh or transplanted), the metadata block, then
`bodyTail`.  `compressRows` abstracts the zlib/bufio stack: the IDAT payload
blocks it produces from the filtered scanline stream. -/
def encodeBody (sink : Nat → Bool) (clevel : Int)
    (compressRows : List (List Nat) → List (List Nat))
    (compress : List Nat → List Nat)
    (img : Img) (md : Option Metadata) (s0 : EncState) : Option EncState :=
  let s1 :=
    match img with
    | Img.fresh f => writeChunk sink s0 (ihdrPayload f) nIHDR
    | Img.deferredImg ihdr _ _ _ => writeChunk sink s0 (dropCRC ihdr) nIHDR
  (match md with
   | none => some s1
   | some m => mdChunks sink compress m s1).map
    (bodyTail sink clevel compressRows img md)

/-- `(*Encoder).EncodeExtended` (writer.go:900-1048): dimension validation for
non-deferred sources (before any byte reaches the sink), then the signature
write followed by `encodeBody`.  Option validation (`metadata.validate`) is an
external collaborator and is not modelled. -/
def encodeExtended (sink : Nat → Bool) (clevel : Int)
    (compressRows : List (List Nat) → List (List Nat))
    (compress : List Nat → List Nat)
    (img : Img) (md : Option Metadata) : Option EncState :=
  match img with
  | Img.fresh f =>
    if f.width ≤ 0 ∨ f.height ≤ 0 ∨ (2 ^ 32 : Int) ≤ f.width ∨
        (2 ^ 32 : Int) ≤ f.height then
      some { out := [], wcount := 0, err := some (Err.format "invalid image size") }
    else
      encodeBody sink clevel compressRows compress img md
        (sinkWrite sink initState pngHeaderBytes)
  | Img.deferredImg _ _ _ _ =>
    encodeBody sink clevel compressRows compress img md
      (sinkWrite sink initState pngHeaderBytes)

/-! ### Auxiliary definitions used by statements -/

/-- A sink on which every `Write` call succeeds. -/
def okSink : Nat → Bool := fun _ => true

/-- A sink on which every `Write` call fails. -/
def failSink : Nat → Bool := fun _ => false

/-- Default palette entry for out-of-range `getD` reads in statements. -/
def dPal : PaletteEntry := { r := 0, g := 0, b := 0, a := 0 }

/-- The Average formula as the claim words it: "all arithmetic is performed
modulo 256 on unsigned bytes (so the sum `cur[i-bpp] + prev[i]` is itself an
unsigned-byte value before halving)".  Stated for comparison with `avgRow`,
the formula the source actually computes. -/
def avgRowClaim (cur prev : List Nat) (bpp : Nat) : List Nat :=
  (List.range cur.length).map fun i =>
    if i < bpp then sub8 (gB cur i) (gB prev i / 2)
    else sub8 (gB cur i) (((gB cur (i - bpp) + gB prev i) % 256) / 2)

-- The byte image of each optional metadata chunk, used to state the output
-- decomposition of a successful encode.

def gamaBytes (m : Metadata) : List Nat :=
  match m.gamma with
  | none => []
  | some g => chunkBytes nGAMA (be32 g)

def chrmBytes (m : Metadata) : List Nat :=
  match m.chroma with
  | none => []
  | some c =>
    chunkBytes nCHRM
      (be32 c.whiteX ++ be32 c.whiteY ++ be32 c.redX ++ be32 c.redY ++
       be32 c.greenX ++ be32 c.greenY ++ be32 c.blueX ++ be32 c.blueY)

def srgbBytes (m : Metadata) : List Nat :=
  match m.srgbIntent with
  | none => []
  | some i => chunkBytes nSRGB [i % 256]

def timeBytes (m : Metadata) : List Nat :=
  match m.lastModified with
  | none => []
  | some t =>
    chunkBytes nTIME
      (be16 t.year ++ [t.month % 256, t.day % 256, t.hour % 256,
                       t.minute % 256, t.second % 256])

def iccpBytes (compress : List Nat → List Nat) (m : Metadata) : List Nat :=
  match m.icc with
  | none => []
  | some obj => chunkBytes nICCP (m.iccName ++ [0, 0] ++ compress obj)

def physBytes (m : Metadata) : List Nat :=
  match m.dimension with
  | none => []
  | some d => chunkBytes nPHYS (be32 d.x ++ be32 d.y ++ [d.unit % 256])

def xmpBytes (compress : List Nat → List Nat) (m : Metadata) : List Nat :=
  if m.rawXmp = none ∧ m.xmp = none then []
  else chunkBytes nITXT (itxtPayload compress (xmpEntry m))

def textEntryBytes (compress : List Nat → List Nat) (t : TextEntry) : List Nat :=
  match t.entryType with
  | EType.text => chunkBytes nTEXT (t.key ++ [0] ++ t.value)
  | EType.ztext => chunkBytes nZTXT (t.key ++ [0, 0] ++ compress t.value)
  | EType.itext => chunkBytes nITXT (itxtPayload compress t)

/-- The bytes of the whole metadata block, in emission order. -/
def mdBytes (compress : List Nat → List Nat) (m : Metadata) : List Nat :=
  gamaBytes m ++ chrmBytes m ++ srgbBytes m ++ timeBytes m ++
  iccpBytes compress m ++ physBytes m ++ xmpBytes compress m ++
  (m.text.map (textEntryBytes compress)).flatten

def mdOptBytes (compress : List Nat → List Nat) (md : Option Metadata) : List Nat :=
  match md with
  | none => []
  | some m => mdBytes compress m

def histBytes (md : Option Metadata) : List Nat :=
  match md with
  | none => []
  | some m =>
    match m.histogram with
    | none => []
    | some h => chunkBytes nHIST ((h.map be16).flatten)

/-- PLTE then (conditional) tRNS bytes for a valid palette. -/
def plteTrnsBytes (p : List PaletteEntry) : List Nat :=
  chunkBytes nPLTE (plteBytes p) ++
    (match lastNonOpaque p with
     | none => []
     | some last => chunkBytes nTRNS ((p.map fun c => c.a).take (last + 1)))

/-- The palette block of a fresh image (empty for non-paletted images). -/
def palChunkBytes (f : FreshImg) : List Nat :=
  match palOf f with
  | some p => plteTrnsBytes p
  | none => []

/-- The IDAT chunk stream of a fresh image. -/
def idatChunkBytes (clevel : Int) (compressRows : List (List Nat) → List (List Nat))
    (f : FreshImg) : List Nat :=
  let cb := selectCB f
  let n := (bitsPerPixel cb * f.width.toNat + 7) / 8
  ((compressRows (filteredRows cb (levelToZlib clevel) f.rows n)).map
    (chunkBytes nIDAT)).flatten

/-- The palette-validity side condition under which the sticky-error policy
holds without exception: `writePLTEAndTRNS` is never reached with an
invalid-length palette.  (Deferred sources never reach it at all.) -/
def palOK : Img → Prop
  | Img.fresh f =>
    match palOf f with
    | none => True
    | some p => 1 ≤ p.length ∧ p.length ≤ 256
  | Img.deferredImg _ _ _ _ => True

-- Concrete inputs used by counterexamples and witnesses.

/-- A fresh paletted image whose palette is empty (`color.Palette{}` is a
non-nil empty slice in Go, so `pal != nil` holds and `len(pal) = 0`). -/
def emptyPalImg : FreshImg :=
  { width := 1, height := 1, isPalettedImage := true,
    colorModel := CModel.palette [], opaqueDecl := none, alphas := [],
    rows := [[0]] }

/-- A 1x1 image whose color model is 8-bit grayscale but whose single pixel is
fully transparent (alpha 0). -/
def grayClearImg : FreshImg :=
  { width := 1, height := 1, isPalettedImage := false,
    colorModel := CModel.gray, opaqueDecl := none, alphas := [0],
    rows := [[0]] }

/-- A 1x1 opaque 8-bit grayscale image. -/
def grayOpaqueImg : FreshImg :=
  { width := 1, height := 1, isPalettedImage := false,
    colorModel := CModel.gray, opaqueDecl := none, alphas := [0xffff],
    rows := [[7]] }

/-- A 0x1 image (invalid width). -/
def zeroWidthImg : FreshImg :=
  { width := 0, height := 1, isPalettedImage := false,
    colorModel := CModel.gray, opaqueDecl := none, alphas := [],
    rows := [] }

/-- A metadata record carrying only a raw (pre-encoded) ICC blob. -/
def iccRawOnlyMd : Metadata :=
  { gamma := none, chroma := none, srgbIntent := none, lastModified := none,
    iccName := [110], icc := none, rawIcc := [1, 2, 3], dimension := none,
    histogram := none, rawXmp := none, xmp := none, text := [] }

/-- A 5-entry palette in which only index 2 is not fully opaque. -/
def pal5 : List PaletteEntry :=
  [{ r := 1, g := 1, b := 1, a := 255 }, { r := 2, g := 2, b := 2, a := 255 },
   { r := 3, g := 3, b := 3, a := 7 }, { r := 4, g := 4, b := 4, a := 255 },
   { r := 5, g := 5, b := 5, a := 255 }]

/-! ### Lemmas about the early-exit loop -/

theorem earlyRun_lt_iff (best : Nat) (ts : List Nat) (acc : Nat) :
    (earlyRun best ts acc).1 < best ↔ acc + ts.sum < best := by
  induction ts generalizing acc with
  | nil => simp [earlyRun]
  | cons t rest ih =>
    simp only [earlyRun, List.sum_cons]
    split
    · next hb => simp only []; omega
    · next hb => rw [ih (acc + t)]; omega

theorem earlyRun_complete (best : Nat) (ts : List Nat) (acc : Nat)
    (h : (earlyRun best ts acc).1 < best) :
    (earlyRun best ts acc).1 = acc + ts.sum ∧ (earlyRun best ts acc).2 = ts.length := by
  induction ts generalizing acc with
  | nil => simp [earlyRun]
  | cons t rest ih =>
    by_cases hb : best ≤ acc + t
    · simp only [earlyRun, if_pos hb] at h; omega
    · simp only [earlyRun, if_neg hb] at h ⊢
      obtain ⟨h1, h2⟩ := ih (acc + t) h
      simp [h1, h2, List.sum_cons]; omega

theorem sumAbs_take_add (l : List Nat) (k : Nat) :
    sumAbs (l.take k) + ((l.drop k).map abs8).sum = sumAbs l := by
  simp only [sumAbs, List.map_take, List.map_drop]
  exact List.sum_take_add_sum_drop (l.map abs8) k

theorem candRun_lt_iff (row old : List Nat) (bpp best : Nat) :
    (candRun row old bpp best).1 < best ↔ sumAbs row < best := by
  simp only [candRun]
  rw [earlyRun_lt_iff, sumAbs_take_add]

theorem candRun_complete (row old : List Nat) (bpp best : Nat)
    (hbpp : bpp ≤ row.length) (hold : old.length ≤ row.length)
    (h : (candRun row old bpp best).1 < best) :
    (candRun row old bpp best).1 = sumAbs row ∧ (candRun row old bpp best).2 = row := by
  simp only [candRun] at h ⊢
  obtain ⟨h1, h2⟩ := earlyRun_complete _ _ _ h
  constructor
  · rw [h1, sumAbs_take_add]
  · rw [h2]
    have hw : bpp + ((row.drop bpp).map abs8).length = row.length := by
      simp [List.length_drop]; omega
    rw [hw, List.take_length, List.drop_eq_nil_of_le (by omega)]
    simp

theorem upRow_length (cur prev : List Nat) : (upRow cur prev).length = cur.length := by
  simp [upRow]

theorem subRow_length (cur : List Nat) (bpp : Nat) :
    (subRow cur bpp).length = cur.length := by
  simp [subRow]

theorem avgRow_length (cur prev : List Nat) (bpp : Nat) :
    (avgRow cur prev bpp).length = cur.length := by
  simp [avgRow]

theorem paethRow_length (cur prev : List Nat) (bpp : Nat) :
    (paethRow cur prev bpp).length = cur.length := by
  simp [paethRow]


theorem candRun_not_lt (row old : List Nat) (bpp best : Nat)
    (h : ¬ sumAbs row < best) : ¬ (candRun row old bpp best).1 < best :=
  fun hh => h ((candRun_lt_iff row old bpp best).mp hh)

theorem earlyNone_lt_iff (best : Nat) (cur : List Nat) :
    (earlyRun best (cur.map abs8) 0).1 < best ↔ sumAbs cur < best := by
  rw [earlyRun_lt_iff]; simp [sumAbs]

theorem earlyNone_not_lt (best : Nat) (cur : List Nat)
    (h : ¬ sumAbs cur < best) : ¬ (earlyRun best (cur.map abs8) 0).1 < best :=
  fun hh => h ((earlyNone_lt_iff best cur).mp hh)

theorem earlyNone_val (best : Nat) (cur : List Nat)
    (h : sumAbs cur < best) : (earlyRun best (cur.map abs8) 0).1 = sumAbs cur := by
  have hl : (earlyRun best (cur.map abs8) 0).1 < best := (earlyNone_lt_iff best cur).mpr h
  have := (earlyRun_complete best (cur.map abs8) 0 hl).1
  simpa [sumAbs] using this

theorem filterGo_spec (cur prev o1 o3 o4 : List Nat) (bpp : Nat)
    (h1 : o1.length = cur.length) (h3 : o3.length = cur.length)
    (h4 : o4.length = cur.length) (hb : bpp ≤ cur.length) :
    (filterGo cur prev o1 o3 o4 bpp).fidx = specFilterIdx cur prev bpp ∧
    selectedRow (filterGo cur prev o1 o3 o4 bpp) =
      specFilterIdx cur prev bpp ::
        transformRow (specFilterIdx cur prev bpp) cur prev bpp := by
  have hbP : bpp ≤ (paethRow cur prev bpp).length := by rw [paethRow_length]; exact hb
  have hoP : o4.length ≤ (paethRow cur prev bpp).length := by rw [paethRow_length, h4]
  have hbS : bpp ≤ (subRow cur bpp).length := by rw [subRow_length]; exact hb
  have hoS : o1.length ≤ (subRow cur bpp).length := by rw [subRow_length, h1]
  have hbA : bpp ≤ (avgRow cur prev bpp).length := by rw [avgRow_length]; exact hb
  have hoA : o3.length ≤ (avgRow cur prev bpp).length := by rw [avgRow_length, h3]
  simp only [filterGo, specFilterIdx]
  by_cases cP : sumAbs (paethRow cur prev bpp) < sumAbs (upRow cur prev)
  · have eP := (candRun_lt_iff (paethRow cur prev bpp) o4 bpp (sumAbs (upRow cur prev))).mpr cP
    have vP := candRun_complete (paethRow cur prev bpp) o4 bpp (sumAbs (upRow cur prev)) hbP hoP eP
    simp only [if_pos eP, vP.1, vP.2, if_pos cP]
    by_cases cN : sumAbs cur < sumAbs (paethRow cur prev bpp)
    · have eN := (earlyNone_lt_iff (sumAbs (paethRow cur prev bpp)) cur).mpr cN
      have vN := earlyNone_val (sumAbs (paethRow cur prev bpp)) cur cN
      simp only [if_pos eN, vN, if_pos cN]
      by_cases cS : sumAbs (subRow cur bpp) < sumAbs cur
      · have eS := (candRun_lt_iff (subRow cur bpp) o1 bpp (sumAbs cur)).mpr cS
        have vS := candRun_complete (subRow cur bpp) o1 bpp (sumAbs cur) hbS hoS eS
        simp only [if_pos eS, vS.1, vS.2, if_pos cS]
        by_cases cA : sumAbs (avgRow cur prev bpp) < sumAbs (subRow cur bpp)
        · have eA := (candRun_lt_iff (avgRow cur prev bpp) o3 bpp (sumAbs (subRow cur bpp))).mpr cA
          have vA := candRun_complete (avgRow cur prev bpp) o3 bpp (sumAbs (subRow cur bpp)) hbA hoA eA
          simp only [if_pos eA, vA.1, vA.2, if_pos cA]
          simp [selectedRow, transformRow, betterOf, ftNone, ftSub, ftUp, ftAverage, ftPaeth, *]
        · have nA := candRun_not_lt (avgRow cur prev bpp) o3 bpp (sumAbs (subRow cur bpp)) cA
          simp only [if_neg nA, if_neg cA]
          simp [selectedRow, transformRow, betterOf, ftNone, ftSub, ftUp, ftAverage, ftPaeth, *]
      · have nS := candRun_not_lt (subRow cur bpp) o1 bpp (sumAbs cur) cS
        simp only [if_neg nS, if_neg cS]
        by_cases cA : sumAbs (avgRow cur prev bpp) < sumAbs cur
        · have eA := (candRun_lt_iff (avgRow cur prev bpp) o3 bpp (sumAbs cur)).mpr cA
          have vA := candRun_complete (avgRow cur prev bpp) o3 bpp (sumAbs cur) hbA hoA eA
          simp only [if_pos eA, vA.1, vA.2, if_pos cA]
          simp [selectedRow, transformRow, betterOf, ftNone, ftSub, ftUp, ftAverage, ftPaeth, *]
        · have nA := candRun_not_lt (avgRow cur prev bpp) o3 bpp (sumAbs cur) cA
          simp only [if_neg nA, if_neg cA]
          simp [selectedRow, transformRow, betterOf, ftNone, ftSub, ftUp, ftAverage, ftPaeth, *]
    · have nN := earlyNone_not_lt (sumAbs (paethRow cur prev bpp)) cur cN
      simp only [if_neg nN, if_neg cN]
      by_cases cS : sumAbs (subRow cur bpp) < sumAbs (paethRow cur prev bpp)
      · have eS := (candRun_lt_iff (subRow cur bpp) o1 bpp (sumAbs (paethRow cur prev bpp))).mpr cS
        have vS := candRun_complete (subRow cur bpp) o1 bpp (sumAbs (paethRow cur prev bpp)) hbS hoS eS
        simp only [if_pos eS, vS.1, vS.2, if_pos cS]
        by_cases cA : sumAbs (avgRow cur prev bpp) < sumAbs (subRow cur bpp)
        · have eA := (candRun_lt_iff (avgRow cur prev bpp) o3 bpp (sumAbs (subRow cur bpp))).mpr cA
          have vA := candRun_complete (avgRow cur prev bpp) o3 bpp (sumAbs (subRow cur bpp)) hbA hoA eA
          simp only [if_pos eA, vA.1, vA.2, if_pos cA]
          simp [selectedRow, transformRow, betterOf, ftNone, ftSub, ftUp, ftAverage, ftPaeth, *]
        · have nA := candRun_not_lt (avgRow cur prev bpp) o3 bpp (sumAbs (subRow cur bpp)) cA
          simp only [if_neg nA, if_neg cA]
          simp [selectedRow, transformRow, betterOf, ftNone, ftSub, ftUp, ftAverage, ftPaeth, *]
      · have nS := candRun_not_lt (subRow cur bpp) o1 bpp (sumAbs (paethRow cur prev bpp)) cS
        simp only [if_neg nS, if_neg cS]
        by_cases cA : sumAbs (avgRow cur prev bpp) < sumAbs (paethRow cur prev bpp)
        · have eA := (candRun_lt_iff (avgRow cur prev bpp) o3 bpp (sumAbs (paethRow cur prev bpp))).mpr cA
          have vA := candRun_complete (avgRow cur prev bpp) o3 bpp (sumAbs (paethRow cur prev bpp)) hbA hoA eA
          simp only [if_pos eA, vA.1, vA.2, if_pos cA]
          simp [selectedRow, transformRow, betterOf, ftNone, ftSub, ftUp, ftAverage, ftPaeth, *]
        · have nA := candRun_not_lt (avgRow cur prev bpp) o3 bpp (sumAbs (paethRow cur prev bpp)) cA
          simp only [if_neg nA, if_neg cA]
          simp [selectedRow, transformRow, betterOf, ftNone, ftSub, ftUp, ftAverage, ftPaeth, *]
  · have nP := candRun_not_lt (paethRow cur prev bpp) o4 bpp (sumAbs (upRow cur prev)) cP
    simp only [if_neg nP, if_neg cP]
    by_cases cN : sumAbs cur < sumAbs (upRow cur prev)
    · have eN := (earlyNone_lt_iff (sumAbs (upRow cur prev)) cur).mpr cN
      have vN := earlyNone_val (sumAbs (upRow cur prev)) cur cN
      simp only [if_pos eN, vN, if_pos cN]
      by_cases cS : sumAbs (subRow cur bpp) < sumAbs cur
      · have eS := (candRun_lt_iff (subRow cur bpp) o1 bpp (sumAbs cur)).mpr cS
        have vS := candRun_complete (subRow cur bpp) o1 bpp (sumAbs cur) hbS hoS eS
        simp only [if_pos eS, vS.1, vS.2, if_pos cS]
        by_cases cA : sumAbs (avgRow cur prev bpp) < sumAbs (subRow cur bpp)
        · have eA := (candRun_lt_iff (avgRow cur prev bpp) o3 bpp (sumAbs (subRow cur bpp))).mpr cA
          have vA := candRun_complete (avgRow cur prev bpp) o3 bpp (sumAbs (subRow cur bpp)) hbA hoA eA
          simp only [if_pos eA, vA.1, vA.2, if_pos cA]
          simp [selectedRow, transformRow, betterOf, ftNone, ftSub, ftUp, ftAverage, ftPaeth, *]
        · have nA := candRun_not_lt (avgRow cur prev bpp) o3 bpp (sumAbs (subRow cur bpp)) cA
          simp only [if_neg nA, if_neg cA]
          simp [selectedRow, transformRow, betterOf, ftNone, ftSub, ftUp, ftAverage, ftPaeth, *]
      · have nS := candRun_not_lt (subRow cur bpp) o1 bpp (sumAbs cur) cS
        simp only [if_neg nS, if_neg cS]
        by_cases cA : sumAbs (avgRow cur prev bpp) < sumAbs cur
        · have eA := (candRun_lt_iff (avgRow cur prev bpp) o3 bpp (sumAbs cur)).mpr cA
          have vA := candRun_complete (avgRow cur prev bpp) o3 bpp (sumAbs cur) hbA hoA eA
          simp only [if_pos eA, vA.1, vA.2, if_pos cA]
          simp [selectedRow, transformRow, betterOf, ftNone, ftSub, ftUp, ftAverage, ftPaeth, *]
        · have nA := candRun_not_lt (avgRow cur prev bpp) o3 bpp (sumAbs cur) cA
          simp only [if_neg nA, if_neg cA]
          simp [selectedRow, transformRow, betterOf, ftNone, ftSub, ftUp, ftAverage, ftPaeth, *]
    · have nN := earlyNone_not_lt (sumAbs (upRow cur prev)) cur cN
      simp only [if_neg nN, if_neg cN]
      by_cases cS : sumAbs (subRow cur bpp) < sumAbs (upRow cur prev)
      · have eS := (candRun_lt_iff (subRow cur bpp) o1 bpp (sumAbs (upRow cur prev))).mpr cS
        have vS := candRun_complete (subRow cur bpp) o1 bpp (sumAbs (upRow cur prev)) hbS hoS eS
        simp only [if_pos eS, vS.1, vS.2, if_pos cS]
        by_cases cA : sumAbs (avgRow cur prev bpp) < sumAbs (subRow cur bpp)
        · have eA := (candRun_lt_iff (avgRow cur prev bpp) o3 bpp (sumAbs (subRow cur bpp))).mpr cA
          have vA := candRun_complete (avgRow cur prev bpp) o3 bpp (sumAbs (subRow cur bpp)) hbA hoA eA
          simp only [if_pos eA, vA.1, vA.2, if_pos cA]
          simp [selectedRow, transformRow, betterOf, ftNone, ftSub, ftUp, ftAverage, ftPaeth, *]
        · have nA := candRun_not_lt (avgRow cur prev bpp) o3 bpp (sumAbs (subRow cur bpp)) cA
          simp only [if_neg nA, if_neg cA]
          simp [selectedRow, transformRow, betterOf, ftNone, ftSub, ftUp, ftAverage, ftPaeth, *]
      · have nS := candRun_not_lt (subRow cur bpp) o1 bpp (sumAbs (upRow cur prev)) cS
        simp only [if_neg nS, if_neg cS]
        by_cases cA : sumAbs (avgRow cur prev bpp) < sumAbs (upRow cur prev)
        · have eA := (candRun_lt_iff (avgRow cur prev bpp) o3 bpp (sumAbs (upRow cur prev))).mpr cA
          have vA := candRun_complete (avgRow cur prev bpp) o3 bpp (sumAbs (upRow cur prev)) hbA hoA eA
          simp only [if_pos eA, vA.1, vA.2, if_pos cA]
          simp [selectedRow, transformRow, betterOf, ftNone, ftSub, ftUp, ftAverage, ftPaeth, *]
        · have nA := candRun_not_lt (avgRow cur prev bpp) o3 bpp (sumAbs (upRow cur prev)) cA
          simp only [if_neg nA, if_neg cA]
          simp [selectedRow, transformRow, betterOf, ftNone, ftSub, ftUp, ftAverage, ftPaeth, *]


/-! ### Sticky-error and output-decomposition lemmas for the state operations -/

theorem sinkWrite_err_none {sink : Nat → Bool} {s : EncState} {b : List Nat}
    (h : (sinkWrite sink s b).err = none) :
    s.err = none ∧ (sinkWrite sink s b).out = s.out ++ b := by
  unfold sinkWrite at h ⊢
  by_cases hk : sink s.wcount
  · simp only [if_pos hk] at h ⊢; exact ⟨h, by trivial⟩
  · simp only [if_neg hk] at h; exact Option.noConfusion h

theorem sinkWrite_out_ext (sink : Nat → Bool) (s : EncState) (b : List Nat) :
    ∃ t, (sinkWrite sink s b).out = s.out ++ t := by
  unfold sinkWrite
  by_cases hk : sink s.wcount
  · simp only [if_pos hk]; exact ⟨b, rfl⟩
  · simp only [if_neg hk]; exact ⟨[], by simp⟩

theorem sinkWrite_err_shape (sink : Nat → Bool) (s : EncState) (b : List Nat) :
    (sinkWrite sink s b).err = s.err ∨
      ∃ k, (sinkWrite sink s b).err = some (Err.sinkErr k) := by
  unfold sinkWrite
  by_cases hk : sink s.wcount
  · simp only [if_pos hk]; left; trivial
  · simp only [if_neg hk]; right; exact ⟨s.wcount, by trivial⟩

theorem writeChunk_sticky {sink : Nat → Bool} {s : EncState} {b name : List Nat}
    (h : s.err.isSome = true) : writeChunk sink s b name = s := by
  simp [writeChunk, h]

theorem writeChunk_success {sink : Nat → Bool} {s : EncState} {b name : List Nat}
    (h : (writeChunk sink s b name).err = none) :
    s.err = none ∧ (writeChunk sink s b name).out = s.out ++ chunkBytes name b := by
  simp only [writeChunk] at h ⊢
  by_cases h0 : s.err.isSome
  · rw [if_pos h0] at h ⊢
    rw [h] at h0; simp at h0
  · rw [if_neg h0] at h ⊢
    by_cases h2 : 2 ^ 32 ≤ b.length
    · rw [if_pos h2] at h; simp at h
    · rw [if_neg h2] at h ⊢
      by_cases hA : (sinkWrite sink s (be32 b.length ++ name)).err.isSome
      · rw [if_pos hA] at h; rw [h] at hA; simp at hA
      · rw [if_neg hA] at h ⊢
        by_cases hB : (sinkWrite sink (sinkWrite sink s (be32 b.length ++ name)) b).err.isSome
        · rw [if_pos hB] at h; rw [h] at hB; simp at hB
        · rw [if_neg hB] at h ⊢
          obtain ⟨hB1, hB2⟩ := sinkWrite_err_none h
          obtain ⟨hA1, hA2⟩ := sinkWrite_err_none hB1
          obtain ⟨h01, h02⟩ := sinkWrite_err_none hA1
          refine ⟨h01, ?_⟩
          rw [hB2, hA2, h02, chunkBytes]
          simp [List.append_assoc]

theorem writeChunk_out_ext (sink : Nat → Bool) (s : EncState) (b name : List Nat) :
    ∃ t, (writeChunk sink s b name).out = s.out ++ t := by
  simp only [writeChunk]
  by_cases h0 : s.err.isSome
  · rw [if_pos h0]; exact ⟨[], by simp⟩
  · rw [if_neg h0]
    by_cases h2 : 2 ^ 32 ≤ b.length
    · rw [if_pos h2]; exact ⟨[], by simp⟩
    · rw [if_neg h2]
      obtain ⟨t1, e1⟩ := sinkWrite_out_ext sink s (be32 b.length ++ name)
      by_cases hA : (sinkWrite sink s (be32 b.length ++ name)).err.isSome
      · rw [if_pos hA]; exact ⟨t1, e1⟩
      · rw [if_neg hA]
        obtain ⟨t2, e2⟩ := sinkWrite_out_ext sink (sinkWrite sink s (be32 b.length ++ name)) b
        by_cases hB : (sinkWrite sink (sinkWrite sink s (be32 b.length ++ name)) b).err.isSome
        · rw [if_pos hB]; exact ⟨t1 ++ t2, by rw [e2, e1, List.append_assoc]⟩
        · rw [if_neg hB]
          obtain ⟨t3, e3⟩ := sinkWrite_out_ext sink
            (sinkWrite sink (sinkWrite sink s (be32 b.length ++ name)) b)
            (be32 (crc32 (name ++ b)))
          exact ⟨t1 ++ t2 ++ t3, by rw [e3, e2, e1]; simp [List.append_assoc]⟩

theorem writeChunk_format_stable {sink : Nat → Bool} {s : EncState} {b name : List Nat}
    {msg : String} (h : (writeChunk sink s b name).err = some (Err.format msg)) :
    s.err = some (Err.format msg) := by
  simp only [writeChunk] at h
  by_cases h0 : s.err.isSome
  · rwa [if_pos h0] at h
  · rw [if_neg h0] at h
    by_cases h2 : 2 ^ 32 ≤ b.length
    · rw [if_pos h2] at h; simp at h
    · rw [if_neg h2] at h
      have hs0 : s.err = none := by
        cases hse : s.err with
        | none => rfl
        | some e => rw [hse] at h0; simp at h0
      exfalso
      by_cases hA : (sinkWrite sink s (be32 b.length ++ name)).err.isSome
      · rw [if_pos hA] at h
        rcases sinkWrite_err_shape sink s (be32 b.length ++ name) with he | ⟨k, he⟩
        · rw [he, hs0] at h; simp at h
        · rw [he] at h; simp at h
      · rw [if_neg hA] at h
        by_cases hB : (sinkWrite sink (sinkWrite sink s (be32 b.length ++ name)) b).err.isSome
        · rw [if_pos hB] at h
          rcases sinkWrite_err_shape sink (sinkWrite sink s (be32 b.length ++ name)) b with he | ⟨k, he⟩
          · rw [he] at h; rw [h] at hA; simp at hA
          · rw [he] at h; simp at h
        · rw [if_neg hB] at h
          rcases sinkWrite_err_shape sink
            (sinkWrite sink (sinkWrite sink s (be32 b.length ++ name)) b)
            (be32 (crc32 (name ++ b))) with he | ⟨k, he⟩
          · rw [he] at h; rw [h] at hB; simp at hB
          · rw [he] at h; simp at h

theorem writeChunk_err_small {sink : Nat → Bool} {s : EncState} {b : List Nat}
    (name : List Nat) (hs : s.err = none) (hb : b.length < 2 ^ 32) :
    (writeChunk sink s b name).err = none ∨
      ∃ k, (writeChunk sink s b name).err = some (Err.sinkErr k) := by
  simp only [writeChunk]
  have h0 : ¬ s.err.isSome := by rw [hs]; simp
  rw [if_neg h0, if_neg (by omega : ¬ 2 ^ 32 ≤ b.length)]
  by_cases hA : (sinkWrite sink s (be32 b.length ++ name)).err.isSome
  · rw [if_pos hA]
    rcases sinkWrite_err_shape sink s (be32 b.length ++ name) with he | ⟨k, he⟩
    · rw [he, hs]; exact Or.inl rfl
    · exact Or.inr ⟨k, he⟩
  · rw [if_neg hA]
    by_cases hB : (sinkWrite sink (sinkWrite sink s (be32 b.length ++ name)) b).err.isSome
    · rw [if_pos hB]
      rcases sinkWrite_err_shape sink (sinkWrite sink s (be32 b.length ++ name)) b with he | ⟨k, he⟩
      · left; rw [he]; cases hse : (sinkWrite sink s (be32 b.length ++ name)).err with
        | none => rfl
        | some e => rw [hse] at hA; simp at hA
      · exact Or.inr ⟨k, he⟩
    · rw [if_neg hB]
      rcases sinkWrite_err_shape sink
        (sinkWrite sink (sinkWrite sink s (be32 b.length ++ name)) b)
        (be32 (crc32 (name ++ b))) with he | ⟨k, he⟩
      · left; rw [he]
        cases hse : (sinkWrite sink (sinkWrite sink s (be32 b.length ++ name)) b).err with
        | none => rfl
        | some e => rw [hse] at hB; simp at hB
      · exact Or.inr ⟨k, he⟩


/-! ### Per-operation sticky and success lemmas -/

theorem maybeWriteGAMA_sticky {sink : Nat → Bool} {m : Metadata} {s : EncState}
    (h : s.err.isSome = true) : maybeWriteGAMA sink m s = s := by
  rcases hg : m.gamma with _ | g <;> simp [maybeWriteGAMA, hg, h]

theorem maybeWriteGAMA_success {sink : Nat → Bool} {m : Metadata} {s : EncState}
    (h : (maybeWriteGAMA sink m s).err = none) :
    s.err = none ∧ (maybeWriteGAMA sink m s).out = s.out ++ gamaBytes m := by
  rcases hg : m.gamma with _ | g
  · simp only [maybeWriteGAMA, gamaBytes, hg] at h ⊢
    exact ⟨h, by simp⟩
  · simp only [maybeWriteGAMA, gamaBytes, hg] at h ⊢
    by_cases he : s.err.isSome
    · rw [if_pos he] at h ⊢
      rw [h] at he; simp at he
    · rw [if_neg he] at h ⊢
      exact writeChunk_success h

theorem maybeWriteCHRM_sticky {sink : Nat → Bool} {m : Metadata} {s : EncState}
    (h : s.err.isSome = true) : maybeWriteCHRM sink m s = s := by
  rcases hg : m.chroma with _ | g <;> simp [maybeWriteCHRM, hg, h]

theorem maybeWriteCHRM_success {sink : Nat → Bool} {m : Metadata} {s : EncState}
    (h : (maybeWriteCHRM sink m s).err = none) :
    s.err = none ∧ (maybeWriteCHRM sink m s).out = s.out ++ chrmBytes m := by
  rcases hg : m.chroma with _ | g
  · simp only [maybeWriteCHRM, chrmBytes, hg] at h ⊢
    exact ⟨h, by simp⟩
  · simp only [maybeWriteCHRM, chrmBytes, hg] at h ⊢
    by_cases he : s.err.isSome
    · rw [if_pos he] at h ⊢
      rw [h] at he; simp at he
    · rw [if_neg he] at h ⊢
      exact writeChunk_success h

theorem maybeWriteSRGB_sticky {sink : Nat → Bool} {m : Metadata} {s : EncState}
    (h : s.err.isSome = true) : maybeWriteSRGB sink m s = s := by
  rcases hg : m.srgbIntent with _ | g <;> simp [maybeWriteSRGB, hg, h]

theorem maybeWriteSRGB_success {sink : Nat → Bool} {m : Metadata} {s : EncState}
    (h : (maybeWriteSRGB sink m s).err = none) :
    s.err = none ∧ (maybeWriteSRGB sink m s).out = s.out ++ srgbBytes m := by
  rcases hg : m.srgbIntent with _ | g
  · simp only [maybeWriteSRGB, srgbBytes, hg] at h ⊢
    exact ⟨h, by simp⟩
  · simp only [maybeWriteSRGB, srgbBytes, hg] at h ⊢
    by_cases he : s.err.isSome
    · rw [if_pos he] at h ⊢
      rw [h] at he; simp at he
    · rw [if_neg he] at h ⊢
      exact writeChunk_success h

theorem maybeWriteTIME_sticky {sink : Nat → Bool} {m : Metadata} {s : EncState}
    (h : s.err.isSome = true) : maybeWriteTIME sink m s = s := by
  rcases hg : m.lastModified with _ | g <;> simp [maybeWriteTIME, hg, h]

theorem maybeWriteTIME_success {sink : Nat → Bool} {m : Metadata} {s : EncState}
    (h : (maybeWriteTIME sink m s).err = none) :
    s.err = none ∧ (maybeWriteTIME sink m s).out = s.out ++ timeBytes m := by
  rcases hg : m.lastModified with _ | g
  · simp only [maybeWriteTIME, timeBytes, hg] at h ⊢
    exact ⟨h, by simp⟩
  · simp only [maybeWriteTIME, timeBytes, hg] at h ⊢
    by_cases he : s.err.isSome
    · rw [if_pos he] at h ⊢
      rw [h] at he; simp at he
    · rw [if_neg he] at h ⊢
      exact writeChunk_success h

theorem maybeWritePHYS_sticky {sink : Nat → Bool} {m : Metadata} {s : EncState}
    (h : s.err.isSome = true) : maybeWritePHYS sink m s = s := by
  rcases hg : m.dimension with _ | g <;> simp [maybeWritePHYS, hg, h]

theorem maybeWritePHYS_success {sink : Nat → Bool} {m : Metadata} {s : EncState}
    (h : (maybeWritePHYS sink m s).err = none) :
    s.err = none ∧ (maybeWritePHYS sink m s).out = s.out ++ physBytes m := by
  rcases hg : m.dimension with _ | g
  · simp only [maybeWritePHYS, physBytes, hg] at h ⊢
    exact ⟨h, by simp⟩
  · simp only [maybeWritePHYS, physBytes, hg] at h ⊢
    by_cases he : s.err.isSome
    · rw [if_pos he] at h ⊢
      rw [h] at he; simp at he
    · rw [if_neg he] at h ⊢
      exact writeChunk_success h

theorem maybeWriteICCP_sticky {sink : Nat → Bool} {compress : List Nat → List Nat}
    {m : Metadata} {s : EncState} (h : s.err.isSome = true) :
    maybeWriteICCP sink compress m s = s := by
  simp [maybeWriteICCP, h]

theorem maybeWriteICCP_success {sink : Nat → Bool} {compress : List Nat → List Nat}
    {m : Metadata} {s : EncState} (h : (maybeWriteICCP sink compress m s).err = none) :
    s.err = none ∧ (maybeWriteICCP sink compress m s).out = s.out ++ iccpBytes compress m := by
  unfold maybeWriteICCP at h ⊢
  by_cases he : s.err.isSome
  · rw [if_pos he] at h ⊢
    rw [h] at he; simp at he
  · rw [if_neg he] at h ⊢
    have hs : s.err = none := Option.not_isSome_iff_eq_none.mp he
    by_cases hg : m.icc = none ∧ m.rawIcc = []
    · rw [if_pos hg] at h ⊢
      refine ⟨hs, ?_⟩
      unfold iccpBytes
      rw [hg.1]; simp
    · rw [if_neg hg] at h ⊢
      rcases hi : m.icc with _ | obj
      · simp only [hi] at h ⊢
        refine ⟨hs, ?_⟩
        unfold iccpBytes; rw [hi]; simp
      · simp only [hi] at h ⊢
        unfold iccpBytes; rw [hi]
        exact writeChunk_success h

theorem maybeWriteTEXT_sticky {sink : Nat → Bool} {t : TextEntry} {s : EncState}
    (h : s.err.isSome = true) : maybeWriteTEXT sink t s = s := by
  simp [maybeWriteTEXT, h]

theorem maybeWriteTEXT_success {sink : Nat → Bool} {t : TextEntry} {s : EncState}
    (h : (maybeWriteTEXT sink t s).err = none) :
    s.err = none ∧ (maybeWriteTEXT sink t s).out = s.out ++ chunkBytes nTEXT (t.key ++ [0] ++ t.value) := by
  unfold maybeWriteTEXT at h ⊢
  by_cases he : s.err.isSome
  · rw [if_pos he] at h ⊢
    rw [h] at he; simp at he
  · rw [if_neg he] at h ⊢
    exact writeChunk_success h

theorem maybeWriteITXT_sticky {sink : Nat → Bool} {compress : List Nat → List Nat}
    {t : TextEntry} {s : EncState} (h : s.err.isSome = true) :
    maybeWriteITXT sink compress t s = s := by
  simp [maybeWriteITXT, h]

theorem maybeWriteITXT_success {sink : Nat → Bool} {compress : List Nat → List Nat}
    {t : TextEntry} {s : EncState} (h : (maybeWriteITXT sink compress t s).err = none) :
    s.err = none ∧ (maybeWriteITXT sink compress t s).out =
      s.out ++ chunkBytes nITXT (itxtPayload compress t) := by
  unfold maybeWriteITXT at h ⊢
  by_cases he : s.err.isSome
  · rw [if_pos he] at h ⊢
    rw [h] at he; simp at he
  · rw [if_neg he] at h ⊢
    exact writeChunk_success h

theorem maybeWriteXMP_sticky {sink : Nat → Bool} {compress : List Nat → List Nat}
    {m : Metadata} {s : EncState} (h : s.err.isSome = true) :
    maybeWriteXMP sink compress m s = s := by
  unfold maybeWriteXMP
  by_cases hg : m.rawXmp = none ∧ m.xmp = none
  · rw [if_pos hg]
  · rw [if_neg hg, if_pos h]

theorem maybeWriteXMP_success {sink : Nat → Bool} {compress : List Nat → List Nat}
    {m : Metadata} {s : EncState} (h : (maybeWriteXMP sink compress m s).err = none) :
    s.err = none ∧ (maybeWriteXMP sink compress m s).out = s.out ++ xmpBytes compress m := by
  unfold maybeWriteXMP at h ⊢
  unfold xmpBytes
  by_cases hg : m.rawXmp = none ∧ m.xmp = none
  · simp only [if_pos hg] at h ⊢
    exact ⟨h, by simp⟩
  · simp only [if_neg hg] at h ⊢
    by_cases he : s.err.isSome
    · rw [if_pos he] at h ⊢
      rw [h] at he; simp at he
    · rw [if_neg he] at h ⊢
      exact maybeWriteITXT_success h

theorem maybeWriteHIST_sticky {sink : Nat → Bool} {md : Option Metadata} {s : EncState}
    (h : s.err.isSome = true) : maybeWriteHIST sink md s = s := by
  rcases hm : md with _ | m
  · simp [maybeWriteHIST, hm]
  · rcases hh : m.histogram with _ | hist <;> simp [maybeWriteHIST, hm, hh, h]

theorem maybeWriteHIST_success {sink : Nat → Bool} {md : Option Metadata} {s : EncState}
    (h : (maybeWriteHIST sink md s).err = none) :
    s.err = none ∧ (maybeWriteHIST sink md s).out = s.out ++ histBytes md := by
  rcases hm : md with _ | m
  · simp only [maybeWriteHIST, histBytes, hm] at h ⊢
    exact ⟨h, by simp⟩
  · rcases hh : m.histogram with _ | hist
    · simp only [maybeWriteHIST, histBytes, hm, hh] at h ⊢
      exact ⟨h, by simp⟩
    · simp only [maybeWriteHIST, histBytes, hm, hh] at h ⊢
      by_cases he : s.err.isSome
      · rw [if_pos he] at h ⊢
        rw [h] at he; simp at he
      · rw [if_neg he] at h ⊢
        exact writeChunk_success h

theorem maybeWriteZTXT_sticky {sink : Nat → Bool} {compress : List Nat → List Nat}
    {s : EncState} {key value : List Nat} (h : s.err.isSome = true) :
    maybeWriteZTXT sink compress s key value = some s := by
  simp [maybeWriteZTXT, h]


theorem textDispatch_sticky {sink : Nat → Bool} {compress : List Nat → List Nat}
    {t : TextEntry} {s : EncState} (h : s.err.isSome = true) :
    textDispatch sink compress t s = some s := by
  rcases het : t.entryType <;>
    simp [textDispatch, het, maybeWriteTEXT_sticky h, maybeWriteZTXT_sticky h,
      maybeWriteITXT_sticky h]

theorem textLoop_sticky {sink : Nat → Bool} {compress : List Nat → List Nat}
    (ts : List TextEntry) {s : EncState} (h : s.err.isSome = true) :
    textLoop sink compress ts s = some s := by
  induction ts with
  | nil => rfl
  | cons t rest ih =>
    simp only [textLoop, textDispatch_sticky h, Option.bind_some]
    exact ih

theorem textDispatch_success {sink : Nat → Bool} {compress : List Nat → List Nat}
    {t : TextEntry} {s s' : EncState}
    (hd : textDispatch sink compress t s = some s') (he : s'.err = none) :
    s.err = none ∧ s'.out = s.out ++ textEntryBytes compress t := by
  rcases het : t.entryType
  · simp only [textDispatch, het] at hd
    rw [textEntryBytes, het]
    obtain rfl : maybeWriteTEXT sink t s = s' := Option.some.inj hd
    exact maybeWriteTEXT_success he
  · simp only [textDispatch, het] at hd
    rw [textEntryBytes, het]
    by_cases hse : s.err.isSome
    · rw [maybeWriteZTXT_sticky hse] at hd
      obtain rfl : s = s' := Option.some.inj hd
      rw [he] at hse; simp at hse
    · simp only [maybeWriteZTXT, if_neg hse] at hd
      by_cases g1 : 1024 < t.key.length
      · rw [if_pos g1] at hd; exact Option.noConfusion hd
      · rw [if_neg g1] at hd
        by_cases g2 : 1024 ≤ t.key.length
        · rw [if_pos g2] at hd; exact Option.noConfusion hd
        · rw [if_neg g2] at hd
          by_cases g3 : 1024 ≤ t.key.length + 1
          · rw [if_pos g3] at hd; exact Option.noConfusion hd
          · rw [if_neg g3] at hd
            by_cases g4 : 1024 < t.key.length + 2 + (compress t.value).length
            · rw [if_pos g4] at hd; exact Option.noConfusion hd
            · rw [if_neg g4] at hd
              obtain rfl := Option.some.inj hd
              exact writeChunk_success he
  · simp only [textDispatch, het] at hd
    rw [textEntryBytes, het]
    obtain rfl : maybeWriteITXT sink compress t s = s' := Option.some.inj hd
    exact maybeWriteITXT_success he

theorem textLoop_success {sink : Nat → Bool} {compress : List Nat → List Nat}
    (ts : List TextEntry) {s s' : EncState}
    (hd : textLoop sink compress ts s = some s') (he : s'.err = none) :
    s.err = none ∧ s'.out = s.out ++ (ts.map (textEntryBytes compress)).flatten := by
  induction ts generalizing s with
  | nil =>
    obtain rfl := Option.some.inj hd
    exact ⟨he, by simp⟩
  | cons t rest ih =>
    simp only [textLoop] at hd
    cases hdt : textDispatch sink compress t s with
    | none => rw [hdt] at hd; exact Option.noConfusion hd
    | some s1 =>
      rw [hdt, Option.some_bind] at hd
      obtain ⟨h1, h2⟩ := ih hd
      obtain ⟨h3, h4⟩ := textDispatch_success hdt h1
      exact ⟨h3, by rw [h2, h4]; simp [List.append_assoc]⟩

theorem mdChunks_sticky {sink : Nat → Bool} {compress : List Nat → List Nat}
    {m : Metadata} {s : EncState} (h : s.err.isSome = true) :
    mdChunks sink compress m s = some s := by
  unfold mdChunks
  rw [maybeWriteGAMA_sticky h, maybeWriteCHRM_sticky h, maybeWriteSRGB_sticky h,
    maybeWriteTIME_sticky h, maybeWriteICCP_sticky h, maybeWritePHYS_sticky h,
    maybeWriteXMP_sticky h]
  exact textLoop_sticky m.text h

theorem mdChunks_success {sink : Nat → Bool} {compress : List Nat → List Nat}
    {m : Metadata} {s s' : EncState}
    (hd : mdChunks sink compress m s = some s') (he : s'.err = none) :
    s.err = none ∧ s'.out = s.out ++ mdBytes compress m := by
  unfold mdChunks at hd
  obtain ⟨h1, h2⟩ := textLoop_success m.text hd he
  obtain ⟨h3, h4⟩ := maybeWriteXMP_success h1
  obtain ⟨h5, h6⟩ := maybeWritePHYS_success h3
  obtain ⟨h7, h8⟩ := maybeWriteICCP_success h5
  obtain ⟨h9, h10⟩ := maybeWriteTIME_success h7
  obtain ⟨h11, h12⟩ := maybeWriteSRGB_success h9
  obtain ⟨h13, h14⟩ := maybeWriteCHRM_success h11
  obtain ⟨h15, h16⟩ := maybeWriteGAMA_success h13
  refine ⟨h15, ?_⟩
  rw [h2, h4, h6, h8, h10, h12, h14, h16, mdBytes]
  simp [List.append_assoc]


theorem writePLTEAndTRNS_sticky {sink : Nat → Bool} {s : EncState} {p : List PaletteEntry}
    (h : s.err.isSome = true) (hlen : 1 ≤ p.length ∧ p.length ≤ 256) :
    writePLTEAndTRNS sink s p = s := by
  unfold writePLTEAndTRNS
  rw [if_neg (by omega : ¬(p.length < 1 ∨ 256 < p.length))]
  rw [writeChunk_sticky h]
  cases ho : lastNonOpaque p with
  | none => rfl
  | some l => exact writeChunk_sticky h

theorem writePLTEAndTRNS_success {sink : Nat → Bool} {s : EncState} {p : List PaletteEntry}
    (h : (writePLTEAndTRNS sink s p).err = none) :
    s.err = none ∧ (writePLTEAndTRNS sink s p).out = s.out ++ plteTrnsBytes p := by
  unfold writePLTEAndTRNS at h ⊢
  by_cases hl : p.length < 1 ∨ 256 < p.length
  · rw [if_pos hl] at h; simp at h
  · rw [if_neg hl] at h ⊢
    unfold plteTrnsBytes
    cases ho : lastNonOpaque p with
    | none =>
      simp only [ho] at h ⊢
      obtain ⟨h1, h2⟩ := writeChunk_success h
      exact ⟨h1, by rw [h2]; simp⟩
    | some l =>
      simp only [ho] at h ⊢
      obtain ⟨h1, h2⟩ := writeChunk_success h
      obtain ⟨h3, h4⟩ := writeChunk_success h1
      exact ⟨h3, by rw [h2, h4]; simp [List.append_assoc]⟩

theorem writePLTEAndTRNS_out_ext (sink : Nat → Bool) (s : EncState) (p : List PaletteEntry) :
    ∃ t, (writePLTEAndTRNS sink s p).out = s.out ++ t := by
  unfold writePLTEAndTRNS
  by_cases hl : p.length < 1 ∨ 256 < p.length
  · rw [if_pos hl]; exact ⟨[], by simp⟩
  · rw [if_neg hl]
    obtain ⟨t1, e1⟩ := writeChunk_out_ext sink s (plteBytes p) nPLTE
    cases ho : lastNonOpaque p with
    | none => exact ⟨t1, e1⟩
    | some l =>
      obtain ⟨t2, e2⟩ := writeChunk_out_ext sink (writeChunk sink s (plteBytes p) nPLTE)
        ((p.map fun c => c.a).take (l + 1)) nTRNS
      exact ⟨t1 ++ t2, by rw [e2, e1, List.append_assoc]⟩

theorem foldlIDAT_success {sink : Nat → Bool} {blocks : List (List Nat)} {s : EncState}
    (h : (blocks.foldl (fun st b => writeChunk sink st b nIDAT) s).err = none) :
    s.err = none ∧
      (blocks.foldl (fun st b => writeChunk sink st b nIDAT) s).out =
        s.out ++ (blocks.map (chunkBytes nIDAT)).flatten := by
  induction blocks generalizing s with
  | nil => exact ⟨h, by simp⟩
  | cons b bs ih =>
    simp only [List.foldl_cons] at h ⊢
    obtain ⟨h1, h2⟩ := ih h
    obtain ⟨h3, h4⟩ := writeChunk_success h1
    exact ⟨h3, by rw [h2, h4]; simp [List.append_assoc]⟩

theorem foldlIDAT_out_ext (sink : Nat → Bool) (blocks : List (List Nat)) (s : EncState) :
    ∃ t, (blocks.foldl (fun st b => writeChunk sink st b nIDAT) s).out = s.out ++ t := by
  induction blocks generalizing s with
  | nil => exact ⟨[], by simp⟩
  | cons b bs ih =>
    simp only [List.foldl_cons]
    obtain ⟨t1, e1⟩ := writeChunk_out_ext sink s b nIDAT
    obtain ⟨t2, e2⟩ := ih (writeChunk sink s b nIDAT)
    exact ⟨t1 ++ t2, by rw [e2, e1, List.append_assoc]⟩

theorem writeIDATs_sticky {sink : Nat → Bool} {blocks : List (List Nat)} {s : EncState}
    (h : s.err.isSome = true) : writeIDATs sink blocks s = s := by
  simp [writeIDATs, h]

theorem writeIDATs_success {sink : Nat → Bool} {blocks : List (List Nat)} {s : EncState}
    (h : (writeIDATs sink blocks s).err = none) :
    s.err = none ∧ (writeIDATs sink blocks s).out =
      s.out ++ (blocks.map (chunkBytes nIDAT)).flatten := by
  unfold writeIDATs at h ⊢
  by_cases he : s.err.isSome
  · rw [if_pos he] at h ⊢
    rw [h] at he; simp at he
  · rw [if_neg he] at h ⊢
    exact foldlIDAT_success h

theorem writeIDATs_out_ext (sink : Nat → Bool) (blocks : List (List Nat)) (s : EncState) :
    ∃ t, (writeIDATs sink blocks s).out = s.out ++ t := by
  unfold writeIDATs
  by_cases he : s.err.isSome
  · rw [if_pos he]; exact ⟨[], by simp⟩
  · rw [if_neg he]; exact foldlIDAT_out_ext sink blocks s

theorem maybeWriteHIST_out_ext (sink : Nat → Bool) (md : Option Metadata) (s : EncState) :
    ∃ t, (maybeWriteHIST sink md s).out = s.out ++ t := by
  rcases hm : md with _ | m
  · exact ⟨[], by simp [maybeWriteHIST]⟩
  · rcases hh : m.histogram with _ | hist
    · exact ⟨[], by simp [maybeWriteHIST, hh]⟩
    · by_cases he : s.err.isSome
      · exact ⟨[], by simp [maybeWriteHIST, hh, he]⟩
      · obtain ⟨t, e⟩ := writeChunk_out_ext sink s ((hist.map be16).flatten) nHIST
        exact ⟨t, by simp only [maybeWriteHIST, hh, if_neg he]; exact e⟩


theorem maybeWriteHIST_none (sink : Nat → Bool) (s : EncState) :
    maybeWriteHIST sink none s = s := rfl

theorem sinkWrite_format_stable {sink : Nat → Bool} {s : EncState} {b : List Nat}
    {msg : String} (h : (sinkWrite sink s b).err = some (Err.format msg)) :
    s.err = some (Err.format msg) := by
  rcases sinkWrite_err_shape sink s b with he | ⟨k, he⟩
  · rwa [he] at h
  · rw [he] at h; simp at h

theorem optChunk_sticky {sink : Nat → Bool} {o : Option (List Nat)} {nm : List Nat}
    {s : EncState} (h : s.err.isSome = true) : optChunk sink o nm s = s := by
  cases o with
  | none => rfl
  | some b => exact writeChunk_sticky h

theorem optChunk_out_ext (sink : Nat → Bool) (o : Option (List Nat)) (nm : List Nat)
    (s : EncState) : ∃ t, (optChunk sink o nm s).out = s.out ++ t := by
  cases o with
  | none => exact ⟨[], by simp [optChunk]⟩
  | some b => exact writeChunk_out_ext sink s (dropCRC b) nm

theorem optChunk_format_stable {sink : Nat → Bool} {o : Option (List Nat)} {nm : List Nat}
    {s : EncState} {msg : String}
    (h : (optChunk sink o nm s).err = some (Err.format msg)) :
    s.err = some (Err.format msg) := by
  cases o with
  | none => exact h
  | some b => exact writeChunk_format_stable h

theorem bodyTail_sticky {sink : Nat → Bool} {clevel : Int}
    {cR : List (List Nat) → List (List Nat)} {img : Img} {md : Option Metadata}
    {s : EncState} (h : s.err.isSome = true) (hp : palOK img) :
    bodyTail sink clevel cR img md s = s := by
  cases img with
  | fresh f =>
    simp only [bodyTail]
    cases hpo : palOf f with
    | none =>
      simp only [hpo]
      rw [maybeWriteHIST_sticky h, writeIDATs_sticky h]
      exact writeChunk_sticky h
    | some p =>
      simp only [hpo]
      simp only [palOK] at hp
      rw [hpo] at hp
      rw [writePLTEAndTRNS_sticky h hp, maybeWriteHIST_sticky h, writeIDATs_sticky h]
      exact writeChunk_sticky h
  | deferredImg ihdr plte trns idat =>
    simp only [bodyTail]
    rw [optChunk_sticky h, optChunk_sticky h, maybeWriteHIST_sticky h, optChunk_sticky h]
    exact writeChunk_sticky h

theorem bodyTail_fresh_success {sink : Nat → Bool} {clevel : Int}
    {cR : List (List Nat) → List (List Nat)} {f : FreshImg} {md : Option Metadata}
    {s2 : EncState} (h : (bodyTail sink clevel cR (Img.fresh f) md s2).err = none) :
    s2.err = none ∧ (bodyTail sink clevel cR (Img.fresh f) md s2).out =
      s2.out ++ palChunkBytes f ++ histBytes md ++ idatChunkBytes clevel cR f ++
        chunkBytes nIEND [] := by
  simp only [bodyTail, writeIEND] at h ⊢
  unfold palChunkBytes idatChunkBytes
  cases hpo : palOf f with
  | none =>
    simp only [hpo] at h ⊢
    obtain ⟨h1, h2⟩ := writeChunk_success h
    obtain ⟨h3, h4⟩ := writeIDATs_success h1
    obtain ⟨h5, h6⟩ := maybeWriteHIST_success h3
    exact ⟨h5, by simp [h2, h4, h6, List.append_assoc]⟩
  | some p =>
    simp only [hpo] at h ⊢
    obtain ⟨h1, h2⟩ := writeChunk_success h
    obtain ⟨h3, h4⟩ := writeIDATs_success h1
    obtain ⟨h5, h6⟩ := maybeWriteHIST_success h3
    obtain ⟨h7, h8⟩ := writePLTEAndTRNS_success h5
    exact ⟨h7, by simp [h2, h4, h6, h8, List.append_assoc]⟩

theorem bodyTail_out_ext (sink : Nat → Bool) (clevel : Int)
    (cR : List (List Nat) → List (List Nat)) (img : Img) (md : Option Metadata)
    (s : EncState) : ∃ t, (bodyTail sink clevel cR img md s).out = s.out ++ t := by
  cases img with
  | fresh f =>
    simp only [bodyTail, writeIEND]
    cases hpo : palOf f with
    | none =>
      simp only [hpo]
      obtain ⟨t1, e1⟩ := maybeWriteHIST_out_ext sink md s
      obtain ⟨t2, e2⟩ := writeIDATs_out_ext sink
        (cR (filteredRows (selectCB f) (levelToZlib clevel) f.rows
          ((bitsPerPixel (selectCB f) * f.width.toNat + 7) / 8)))
        (maybeWriteHIST sink md s)
      obtain ⟨t3, e3⟩ := writeChunk_out_ext sink _ [] nIEND
      exact ⟨t1 ++ (t2 ++ t3), by rw [e3, e2, e1]; simp [List.append_assoc]⟩
    | some p =>
      simp only [hpo]
      obtain ⟨t0, e0⟩ := writePLTEAndTRNS_out_ext sink s p
      obtain ⟨t1, e1⟩ := maybeWriteHIST_out_ext sink md (writePLTEAndTRNS sink s p)
      obtain ⟨t2, e2⟩ := writeIDATs_out_ext sink
        (cR (filteredRows (selectCB f) (levelToZlib clevel) f.rows
          ((bitsPerPixel (selectCB f) * f.width.toNat + 7) / 8)))
        (maybeWriteHIST sink md (writePLTEAndTRNS sink s p))
      obtain ⟨t3, e3⟩ := writeChunk_out_ext sink _ [] nIEND
      exact ⟨t0 ++ (t1 ++ (t2 ++ t3)), by rw [e3, e2, e1, e0]; simp [List.append_assoc]⟩
  | deferredImg ihdr plte trns idat =>
    simp only [bodyTail, writeIEND]
    obtain ⟨t0, e0⟩ := optChunk_out_ext sink plte nPLTE s
    obtain ⟨t1, e1⟩ := optChunk_out_ext sink trns nTRNS (optChunk sink plte nPLTE s)
    obtain ⟨t2, e2⟩ := maybeWriteHIST_out_ext sink md
      (optChunk sink trns nTRNS (optChunk sink plte nPLTE s))
    obtain ⟨t3, e3⟩ := optChunk_out_ext sink idat nIDAT
      (maybeWriteHIST sink md (optChunk sink trns nTRNS (optChunk sink plte nPLTE s)))
    obtain ⟨t4, e4⟩ := writeChunk_out_ext sink _ [] nIEND
    exact ⟨t0 ++ (t1 ++ (t2 ++ (t3 ++ t4))), by
      rw [e4, e3, e2, e1, e0]; simp [List.append_assoc]⟩

theorem bodyTail_deferred_format_stable {sink : Nat → Bool} {clevel : Int}
    {cR : List (List Nat) → List (List Nat)} {ihdr : List Nat}
    {plte trns idat : Option (List Nat)} {s : EncState} {msg : String}
    (h : (bodyTail sink clevel cR (Img.deferredImg ihdr plte trns idat) none s).err =
      some (Err.format msg)) :
    s.err = some (Err.format msg) := by
  simp only [bodyTail, writeIEND, maybeWriteHIST_none] at h
  exact optChunk_format_stable
    (optChunk_format_stable (optChunk_format_stable (writeChunk_format_stable h)))


theorem encodeBody_sticky {sink : Nat → Bool} {clevel : Int}
    {cR : List (List Nat) → List (List Nat)} {cmp : List Nat → List Nat}
    {img : Img} {md : Option Metadata} {s : EncState}
    (h : s.err.isSome = true) (hp : palOK img) :
    encodeBody sink clevel cR cmp img md s = some s := by
  cases img with
  | fresh f =>
    simp only [encodeBody, writeChunk_sticky h]
    cases md with
    | none => simp [bodyTail_sticky h hp]
    | some m => simp [mdChunks_sticky h, bodyTail_sticky h hp]
  | deferredImg ihdr plte trns idat =>
    simp only [encodeBody, writeChunk_sticky h]
    cases md with
    | none => simp [bodyTail_sticky h hp]
    | some m => simp [mdChunks_sticky h, bodyTail_sticky h hp]

theorem encodeBody_fresh_success {sink : Nat → Bool} {clevel : Int}
    {cR : List (List Nat) → List (List Nat)} {cmp : List Nat → List Nat}
    {f : FreshImg} {md : Option Metadata} {s0 s' : EncState}
    (hd : encodeBody sink clevel cR cmp (Img.fresh f) md s0 = some s')
    (he : s'.err = none) :
    s0.err = none ∧
      s'.out = s0.out ++ chunkBytes nIHDR (ihdrPayload f) ++ mdOptBytes cmp md ++
        palChunkBytes f ++ histBytes md ++ idatChunkBytes clevel cR f ++
        chunkBytes nIEND [] := by
  cases md with
  | none =>
    simp only [encodeBody, Option.map_some'] at hd
    obtain rfl := Option.some.inj hd
    obtain ⟨h1, h2⟩ := bodyTail_fresh_success he
    obtain ⟨h3, h4⟩ := writeChunk_success h1
    refine ⟨h3, ?_⟩
    rw [h2, h4]
    simp [mdOptBytes, List.append_assoc]
  | some m =>
    simp only [encodeBody] at hd
    cases hm : mdChunks sink cmp m (writeChunk sink s0 (ihdrPayload f) nIHDR) with
    | none => rw [hm] at hd; exact Option.noConfusion hd
    | some s2 =>
      rw [hm] at hd
      simp only [Option.map_some'] at hd
      obtain rfl := Option.some.inj hd
      obtain ⟨h1, h2⟩ := bodyTail_fresh_success he
      obtain ⟨h3, h4⟩ := mdChunks_success hm h1
      obtain ⟨h5, h6⟩ := writeChunk_success h3
      refine ⟨h5, ?_⟩
      rw [h2, h4, h6]
      simp [mdOptBytes, List.append_assoc]

theorem encodeBody_fresh_none_eq (sink : Nat → Bool) (clevel : Int)
    (cR : List (List Nat) → List (List Nat)) (cmp : List Nat → List Nat)
    (f : FreshImg) (s0 : EncState) :
    encodeBody sink clevel cR cmp (Img.fresh f) none s0 =
      some (bodyTail sink clevel cR (Img.fresh f) none
        (writeChunk sink s0 (ihdrPayload f) nIHDR)) := rfl

theorem encodeBody_deferred_none_eq (sink : Nat → Bool) (clevel : Int)
    (cR : List (List Nat) → List (List Nat)) (cmp : List Nat → List Nat)
    (ihdr : List Nat) (plte trns idat : Option (List Nat)) (s0 : EncState) :
    encodeBody sink clevel cR cmp (Img.deferredImg ihdr plte trns idat) none s0 =
      some (bodyTail sink clevel cR (Img.deferredImg ihdr plte trns idat) none
        (writeChunk sink s0 (dropCRC ihdr) nIHDR)) := rfl


/-! ### Characterization of the last non-opaque palette index -/

theorem lastNonOpaque_eq (p : List PaletteEntry) :
    lastNonOpaque p =
      (List.range p.length).foldl
        (fun acc i => if (p.getD i dPal).a ≠ 255 then some i else acc) none := rfl

theorem lastNonOpaque_aux (p : List PaletteEntry) (n : Nat) :
    ((List.range n).foldl
        (fun acc i => if (p.getD i dPal).a ≠ 255 then some i else acc) none = none
      ↔ ∀ j, j < n → (p.getD j dPal).a = 255) ∧
    ∀ l, (List.range n).foldl
        (fun acc i => if (p.getD i dPal).a ≠ 255 then some i else acc) none = some l →
      l < n ∧ (p.getD l dPal).a ≠ 255 ∧ ∀ j, l < j → j < n → (p.getD j dPal).a = 255 := by
  induction n with
  | zero => simp
  | succ n ih =>
    rw [List.range_succ, List.foldl_append, List.foldl_cons, List.foldl_nil]
    by_cases hn : (p.getD n dPal).a ≠ 255
    · rw [if_pos hn]
      constructor
      · constructor
        · intro h; exact Option.noConfusion h
        · intro h; exact absurd (h n (by omega)) hn
      · intro l hl
        obtain rfl := Option.some.inj hl
        exact ⟨by omega, hn, by intro j h1 h2; omega⟩
    · rw [if_neg hn]
      push_neg at hn
      obtain ⟨ih1, ih2⟩ := ih
      constructor
      · rw [ih1]
        constructor
        · intro h j hj
          by_cases hjn : j < n
          · exact h j hjn
          · have hje : j = n := by omega
            rw [hje]; exact hn
        · intro h j hj; exact h j (by omega)
      · intro l hl
        obtain ⟨g1, g2, g3⟩ := ih2 l hl
        refine ⟨by omega, g2, ?_⟩
        intro j hj1 hj2
        by_cases hjn : j < n
        · exact g3 j hj1 hjn
        · have hje : j = n := by omega
          rw [hje]; exact hn

theorem lastNonOpaque_none_iff (p : List PaletteEntry) :
    lastNonOpaque p = none ↔ ∀ j, j < p.length → (p.getD j dPal).a = 255 := by
  rw [lastNonOpaque_eq]
  exact (lastNonOpaque_aux p p.length).1

theorem lastNonOpaque_some_spec (p : List PaletteEntry) (l : Nat)
    (h : lastNonOpaque p = some l) :
    l < p.length ∧ (p.getD l dPal).a ≠ 255 ∧
      ∀ j, l < j → j < p.length → (p.getD j dPal).a = 255 := by
  rw [lastNonOpaque_eq] at h
  exact (lastNonOpaque_aux p p.length).2 l h


/-! ### okSink helpers -/

theorem sinkWrite_ok {s : EncState} (b : List Nat) (hs : s.err = none) :
    (sinkWrite okSink s b).err = none ∧ (sinkWrite okSink s b).out = s.out ++ b := by
  simp [sinkWrite, okSink, hs]

theorem writeChunk_ok {s : EncState} {b name : List Nat} (hs : s.err = none)
    (hb : b.length < 2 ^ 32) :
    (writeChunk okSink s b name).err = none ∧
      (writeChunk okSink s b name).out = s.out ++ chunkBytes name b := by
  have hse : ¬ s.err.isSome = true := by rw [hs]; simp
  simp only [writeChunk, if_neg hse, if_neg (by omega : ¬ 2 ^ 32 ≤ b.length)]
  obtain ⟨e1, o1⟩ := sinkWrite_ok (be32 b.length ++ name) hs
  rw [if_neg (by rw [e1]; simp)]
  obtain ⟨e2, o2⟩ := sinkWrite_ok b e1
  rw [if_neg (by rw [e2]; simp)]
  obtain ⟨e3, o3⟩ := sinkWrite_ok (be32 (crc32 (name ++ b))) e2
  refine ⟨e3, ?_⟩
  rw [o3, o2, o1, chunkBytes]
  simp [List.append_assoc]

theorem plteBytes_length (p : List PaletteEntry) : (plteBytes p).length = 3 * p.length := by
  induction p with
  | nil => simp [plteBytes]
  | cons c rest ih =>
    simp only [plteBytes, List.map_cons, List.flatten_cons, List.length_append,
      List.length_cons, List.length_nil]
    simp only [plteBytes] at ih
    omega

/-! ### Claim theorems -/

/-- C2: for equal-length current/previous rows and any valid `bpp`, `filter`
returns the index of the first candidate, in the priority order Up, Paeth,
None, Sub, Average, whose full `abs8` sum is minimal (strict improvement
only); the early exits never change the selected index, and the returned row
buffer is the selected filter's complete transform with the filter tag in
byte 0. -/
theorem C2_filter_selection_equivalence (cur prev o1 o3 o4 : List Nat) (bpp : Nat)
    (hlen : prev.length = cur.length)
    (h1 : o1.length = cur.length) (h3 : o3.length = cur.length)
    (h4 : o4.length = cur.length) (hb1 : 1 ≤ bpp) (hb : bpp ≤ cur.length) :
    (filterGo cur prev o1 o3 o4 bpp).fidx = specFilterIdx cur prev bpp ∧
    selectedRow (filterGo cur prev o1 o3 o4 bpp) =
      specFilterIdx cur prev bpp ::
        transformRow (specFilterIdx cur prev bpp) cur prev bpp :=
  filterGo_spec cur prev o1 o3 o4 bpp h1 h3 h4 hb

theorem C2_witness :
    (filterGo [200, 150] [0, 100] [0, 0] [0, 0] [0, 0] 1).fidx =
        specFilterIdx [200, 150] [0, 100] 1 ∧
      selectedRow (filterGo [200, 150] [0, 100] [0, 0] [0, 0] [0, 0] 1) =
        specFilterIdx [200, 150] [0, 100] 1 ::
          transformRow (specFilterIdx [200, 150] [0, 100] 1) [200, 150] [0, 100] 1 :=
  C2_filter_selection_equivalence [200, 150] [0, 100] [0, 0] [0, 0] [0, 0] 1
    (by decide) (by decide) (by decide) (by decide) (by decide) (by decide)

/-- C3 counterexample: on cur = [200, 150], prev = [0, 100], bpp = 1 the filter
selects Average and emits [3, 200, 0]; the claim's modulo-256-before-halving
formula predicts [3, 200, 128] instead, so the claim as stated is false. -/
theorem C3_counterexample :
    (filterGo [200, 150] [0, 100] [0, 0] [0, 0] [0, 0] 1).fidx = ftAverage ∧
    selectedRow (filterGo [200, 150] [0, 100] [0, 0] [0, 0] [0, 0] 1) =
      [ftAverage, 200, 0] ∧
    ftAverage :: avgRowClaim [200, 150] [0, 100] 1 = [ftAverage, 200, 128] ∧
    selectedRow (filterGo [200, 150] [0, 100] [0, 0] [0, 0] [0, 0] 1) ≠
      ftAverage :: avgRowClaim [200, 150] [0, 100] 1 := by decide

/-- C3 amended: when the filter selects Average, the emitted row's byte `i`
equals `cur[i] - floor((cur[i-bpp] + prev[i]) / 2)` where the interior sum is
computed exactly (widened, not reduced modulo 256) before halving; only the
outer subtraction is modulo 256.  For `i < bpp` the byte is
`cur[i] - floor(prev[i] / 2)`. -/
theorem C3_average_amended (cur prev o1 o3 o4 : List Nat) (bpp : Nat)
    (h1 : o1.length = cur.length) (h3 : o3.length = cur.length)
    (h4 : o4.length = cur.length) (hb : bpp ≤ cur.length)
    (hf : (filterGo cur prev o1 o3 o4 bpp).fidx = ftAverage) :
    selectedRow (filterGo cur prev o1 o3 o4 bpp) =
      ftAverage :: (List.range cur.length).map (fun i =>
        if i < bpp then sub8 (gB cur i) (gB prev i / 2)
        else sub8 (gB cur i) ((gB cur (i - bpp) + gB prev i) / 2)) := by
  obtain ⟨e1, e2⟩ := filterGo_spec cur prev o1 o3 o4 bpp h1 h3 h4 hb
  have hs : specFilterIdx cur prev bpp = ftAverage := e1.symm.trans hf
  rw [e2, hs]
  simp [transformRow, avgRow, ftAverage, ftSub, ftUp]

theorem C3_witness :
    selectedRow (filterGo [200, 150] [0, 100] [0, 0] [0, 0] [0, 0] 1) =
      ftAverage :: (List.range ([200, 150] : List Nat).length).map (fun i =>
        if i < 1 then sub8 (gB [200, 150] i) (gB [0, 100] i / 2)
        else sub8 (gB [200, 150] i) ((gB [200, 150] (i - 1) + gB [0, 100] i) / 2)) :=
  C3_average_amended [200, 150] [0, 100] [0, 0] [0, 0] [0, 0] 1
    (by decide) (by decide) (by decide) (by decide) (by decide)

/-- C4 counterexample: in 8-bit paletted mode (`cbP8`) with default
compression the filter selector is NOT invoked: the row is emitted with the
None tag even though the selector would pick Up on this row, so the claim's
"including 8-bit paletted" is false. -/
theorem C4_counterexample :
    filterOn cbP8 zlibDefault = false ∧
    encodeRow cbP8 zlibDefault [5, 5] [5, 5] [0, 0] [0, 0] [0, 0] 1 = [ftNone, 5, 5] ∧
    selectedRow (filterGo [5, 5] [5, 5] [0, 0] [0, 0] [0, 0] 1) = [ftUp, 0, 0] ∧
    encodeRow cbP8 zlibDefault [5, 5] [5, 5] [0, 0] [0, 0] [0, 0] 1 ≠
      selectedRow (filterGo [5, 5] [5, 5] [0, 0] [0, 0] [0, 0] 1) := by decide

/-- C4 amended: per-row filtering is skipped exactly for the paletted modes
(1, 2, 4 AND 8-bit) and whenever compression is disabled; in every other mode
the filter selector is invoked, and a skipped row is emitted under the None
filter tag. -/
theorem C4_filter_skip_amended (cb : Nat) (level : Int)
    (cur prev o1 o3 o4 : List Nat) (bpp : Nat) :
    (filterOn cb level = false ↔
      (level = zlibNone ∨ cb = cbP8 ∨ cb = cbP4 ∨ cb = cbP2 ∨ cb = cbP1)) ∧
    (filterOn cb level = false →
      encodeRow cb level cur prev o1 o3 o4 bpp = ftNone :: cur) ∧
    (filterOn cb level = true →
      encodeRow cb level cur prev o1 o3 o4 bpp =
        selectedRow (filterGo cur prev o1 o3 o4 bpp)) := by
  refine ⟨?_, ?_, ?_⟩
  · simp [filterOn, zlibNone]
    tauto
  · intro h; simp [encodeRow, h]
  · intro h; simp [encodeRow, h]

theorem C4_witness :
    encodeRow cbP8 zlibDefault [5, 5] [5, 5] [0, 0] [0, 0] [0, 0] 1 = ftNone :: [5, 5] ∧
    encodeRow cbG8 zlibDefault [5, 5] [5, 5] [0, 0] [0, 0] [0, 0] 1 =
      selectedRow (filterGo [5, 5] [5, 5] [0, 0] [0, 0] [0, 0] 1) :=
  ⟨(C4_filter_skip_amended cbP8 zlibDefault [5, 5] [5, 5] [0, 0] [0, 0] [0, 0] 1).2.1
      (by decide),
   (C4_filter_skip_amended cbG8 zlibDefault [5, 5] [5, 5] [0, 0] [0, 0] [0, 0] 1).2.2
      (by decide)⟩

/-- C5: a metadata record carrying only a raw ICC blob (no ICC object) writes
NO iCCP chunk at all — `maybeWriteICCP` assigns the raw blob to a local
variable but the chunk write sits inside the `m.icc != nil` branch, so the
raw-only case falls through without writing, contradicting both the claim and
the code's own comment ("Then just use it"). -/
theorem C5_icc_raw_only_writes_nothing :
    iccRawOnlyMd.rawIcc ≠ [] ∧ iccRawOnlyMd.icc = none ∧
    maybeWriteICCP okSink (fun v => v) iccRawOnlyMd initState = initState ∧
    iccpBytes (fun v => v) iccRawOnlyMd = [] := by decide

/-- C6 counterexample: a non-paletted image whose color model is 8-bit
grayscale but which contains a transparent pixel still selects grayscale-8
(`cbG8`), not truecolor+alpha-8: the mode switch maps `color.GrayModel` to
`cbG8` unconditionally, with no opacity check. -/
theorem C6_counterexample :
    opaqueCheck grayClearImg = false ∧ palOf grayClearImg = none ∧
    grayClearImg.colorModel = CModel.gray ∧
    selectCB grayClearImg = cbG8 ∧ selectCB grayClearImg ≠ cbTCA8 := by decide

/-- C6 amended: for non-paletted sources, a grayscale color model selects
grayscale-8 regardless of opacity; the opacity check governs mode choice only
for the RGBA/NRGBA/Alpha models (truecolor vs truecolor+alpha 8-bit) and the
default case (16-bit). -/
theorem C6_mode_selection_amended (m : FreshImg) (hpal : palOf m = none) :
    (m.colorModel = CModel.gray → selectCB m = cbG8) ∧
    ((m.colorModel = CModel.rgba ∨ m.colorModel = CModel.nrgba ∨
        m.colorModel = CModel.alphaModel) →
      selectCB m = if opaqueCheck m then cbTC8 else cbTCA8) := by
  constructor
  · intro hc; simp [selectCB, hpal, hc]
  · intro hc
    rcases hc with hc | hc | hc <;> simp [selectCB, hpal, hc]

theorem C6_witness :
    selectCB grayOpaqueImg = cbG8 ∧ selectCB grayClearImg = cbG8 :=
  ⟨(C6_mode_selection_amended grayOpaqueImg (by decide)).1 (by decide),
   (C6_mode_selection_amended grayClearImg (by decide)).1 (by decide)⟩


/-- C9: for a palette of valid length written over a fault-free sink, PLTE is
followed by a tRNS chunk exactly when some entry is not fully opaque, with
payload the alpha bytes of indices 0 through the last non-fully-opaque index
(`lastNonOpaque` IS that index: below it non-opaque, above it all opaque);
length 0 or more than 256 yields a `FormatError`. -/
theorem C9_trns_truncation (s : EncState) (p : List PaletteEntry) (hs : s.err = none) :
    (1 ≤ p.length → p.length ≤ 256 →
      (writePLTEAndTRNS okSink s p).err = none ∧
      (writePLTEAndTRNS okSink s p).out = s.out ++ plteTrnsBytes p) ∧
    (lastNonOpaque p = none ↔ ∀ j, j < p.length → (p.getD j dPal).a = 255) ∧
    (∀ l, lastNonOpaque p = some l →
      l < p.length ∧ (p.getD l dPal).a ≠ 255 ∧
        ∀ j, l < j → j < p.length → (p.getD j dPal).a = 255) ∧
    (p.length < 1 ∨ 256 < p.length →
      writePLTEAndTRNS okSink s p =
        { s with err := some (Err.format "bad palette length") }) := by
  refine ⟨?_, lastNonOpaque_none_iff p, fun l => lastNonOpaque_some_spec p l, ?_⟩
  · intro hl1 hl2
    unfold writePLTEAndTRNS
    rw [if_neg (by omega : ¬(p.length < 1 ∨ 256 < p.length))]
    have hpl : (plteBytes p).length < 2 ^ 32 := by
      rw [plteBytes_length]; omega
    obtain ⟨e1, o1⟩ := writeChunk_ok hs hpl
    unfold plteTrnsBytes
    cases ho : lastNonOpaque p with
    | none =>
      refine ⟨e1, ?_⟩
      rw [o1]; simp
    | some l =>
      have htl : (((p.map fun c => c.a).take (l + 1)).length : Nat) < 2 ^ 32 := by
        have := List.length_take (l + 1) (p.map fun c => c.a)
        have h2 : (p.map fun c => c.a).length = p.length := List.length_map _ _
        omega
      obtain ⟨e2, o2⟩ := writeChunk_ok e1 htl
      refine ⟨e2, ?_⟩
      rw [o2, o1]
      simp [List.append_assoc]
  · intro hl
    unfold writePLTEAndTRNS
    rw [if_pos hl]

theorem C9_witness :
    lastNonOpaque pal5 = some 2 ∧
    ((pal5.map fun c => c.a).take (2 + 1)).length = 3 ∧
    (writePLTEAndTRNS okSink initState pal5).err = none ∧
    (writePLTEAndTRNS okSink initState pal5).out = initState.out ++ plteTrnsBytes pal5 := by
  refine ⟨by decide, by decide, ?_, ?_⟩
  · exact ((C9_trns_truncation initState pal5 rfl).1 (by decide) (by decide)).1
  · exact ((C9_trns_truncation initState pal5 rfl).1 (by decide) (by decide)).2

/-- C10: the zTXt writer assembles its payload inside the fixed 1024-byte
scratch buffer, so it completes (and then writes `key ++ NUL ++ method ++
compressed value` as one chunk) exactly when `len(key) + 2 + len(compressed
value) ≤ 1024`; any longer assembled payload indexes out of the scratch
buffer's bounds (modelled as `none`), and consequently `writeChunk`'s
oversized-payload `UnsupportedError` branch is unreachable for zTXt. -/
theorem C10_ztxt_scratch_bound (sink : Nat → Bool) (compress : List Nat → List Nat)
    (s : EncState) (key value : List Nat) (hs : s.err = none) :
    (key.length + 2 + (compress value).length ≤ 1024 →
      maybeWriteZTXT sink compress s key value =
        some (writeChunk sink s (key ++ [0, 0] ++ compress value) nZTXT)) ∧
    (1024 < key.length + 2 + (compress value).length →
      maybeWriteZTXT sink compress s key value = none) ∧
    (∀ s', maybeWriteZTXT sink compress s key value = some s' →
      ∀ nm, s'.err ≠ some (Err.unsupported nm)) := by
  have hse : ¬ s.err.isSome = true := by rw [hs]; simp
  refine ⟨?_, ?_, ?_⟩
  · intro h
    simp only [maybeWriteZTXT, if_neg hse]
    rw [if_neg (by omega : ¬ 1024 < key.length),
      if_neg (by omega : ¬ 1024 ≤ key.length),
      if_neg (by omega : ¬ 1024 ≤ key.length + 1),
      if_neg (by omega : ¬ 1024 < key.length + 2 + (compress value).length)]
  · intro h
    simp only [maybeWriteZTXT, if_neg hse]
    by_cases k1 : 1024 < key.length
    · rw [if_pos k1]
    · rw [if_neg k1]
      by_cases k2 : 1024 ≤ key.length
      · rw [if_pos k2]
      · rw [if_neg k2]
        by_cases k3 : 1024 ≤ key.length + 1
        · rw [if_pos k3]
        · rw [if_neg k3]
          rw [if_pos h]
  · intro s' hd nm hcontra
    simp only [maybeWriteZTXT, if_neg hse] at hd
    by_cases k1 : 1024 < key.length
    · rw [if_pos k1] at hd; exact Option.noConfusion hd
    · rw [if_neg k1] at hd
      by_cases k2 : 1024 ≤ key.length
      · rw [if_pos k2] at hd; exact Option.noConfusion hd
      · rw [if_neg k2] at hd
        by_cases k3 : 1024 ≤ key.length + 1
        · rw [if_pos k3] at hd; exact Option.noConfusion hd
        · rw [if_neg k3] at hd
          by_cases k4 : 1024 < key.length + 2 + (compress value).length
          · rw [if_pos k4] at hd; exact Option.noConfusion hd
          · rw [if_neg k4] at hd
            obtain rfl := Option.some.inj hd
            have hlen : (key ++ [0, 0] ++ compress value).length < 2 ^ 32 := by
              simp only [List.length_append, List.length_cons, List.length_nil]
              omega
            rcases writeChunk_err_small nZTXT hs hlen with he | ⟨k, he⟩
            · rw [he] at hcontra; exact Option.noConfusion hcontra
            · rw [he] at hcontra
              have := Option.some.inj hcontra
              exact Err.noConfusion this

set_option maxRecDepth 10000 in
theorem C10_witness :
    maybeWriteZTXT okSink (fun v => v) initState [107] [1, 2, 3] =
      some (writeChunk okSink initState ([107] ++ [0, 0] ++ [1, 2, 3]) nZTXT) ∧
    maybeWriteZTXT okSink (fun _ => List.replicate 1023 0) initState [107] [] = none :=
  ⟨(C10_ztxt_scratch_bound okSink (fun v => v) initState [107] [1, 2, 3] rfl).1
      (by decide),
   (C10_ztxt_scratch_bound okSink (fun _ => List.replicate 1023 0) initState [107] []
      rfl).2.1 (by decide)⟩


/-- C1 counterexample: with a sink that fails every write and a fresh paletted
image whose palette is empty, the first error recorded is the signature-write
sink failure (write #0), yet the call returns the `FormatError` that
`writePLTEAndTRNS` later stores unconditionally over the sticky error — so
"the top-level call returns that first error" is false as stated. -/
theorem C1_counterexample :
    (sinkWrite failSink initState pngHeaderBytes).err = some (Err.sinkErr 0) ∧
    (encodeExtended failSink 0 (fun rs => rs) (fun v => v)
        (Img.fresh emptyPalImg) none).map (fun s => s.err) =
      some (some (Err.format "bad palette length")) ∧
    Err.format "bad palette length" ≠ Err.sinkErr 0 := by decide

/-- C1 amended: once the session error is set, every subsequent
write-producing operation of the encode body is a no-op and the body returns
the state (hence the first error) unchanged — PROVIDED the palette, when one
is written, has valid length 1..256; `writePLTEAndTRNS` called with an
invalid-length palette overwrites the sticky error with a `FormatError`
without consulting it first. -/
theorem C1_sticky_amended (sink : Nat → Bool) (clevel : Int)
    (cR : List (List Nat) → List (List Nat)) (cmp : List Nat → List Nat)
    (img : Img) (md : Option Metadata) (s : EncState) (e : Err)
    (h : s.err = some e) (hp : palOK img) :
    encodeBody sink clevel cR cmp img md s = some s :=
  encodeBody_sticky (by rw [h]; rfl) hp

theorem C1_witness :
    encodeBody okSink 0 (fun rs => rs) (fun v => v) (Img.fresh grayOpaqueImg) none
        { out := [], wcount := 0, err := some (Err.sinkErr 0) } =
      some { out := [], wcount := 0, err := some (Err.sinkErr 0) } :=
  C1_sticky_amended okSink 0 (fun rs => rs) (fun v => v) (Img.fresh grayOpaqueImg)
    none { out := [], wcount := 0, err := some (Err.sinkErr 0) } (Err.sinkErr 0)
    rfl (by exact trivial)

/-- C7: a non-deferred encode with width or height outside (0, 2^32) returns
`FormatError` with no bytes written; a 1x1 image passes this validation (the
signature reaches the sink); deferred sources skip dimension validation
entirely — no `FormatError` can arise on the deferred path. -/
theorem C7_dimension_validation (sink : Nat → Bool) (clevel : Int)
    (cR : List (List Nat) → List (List Nat)) (cmp : List Nat → List Nat) :
    (∀ (f : FreshImg) (md : Option Metadata),
      (f.width ≤ 0 ∨ f.height ≤ 0 ∨ (2 ^ 32 : Int) ≤ f.width ∨
        (2 ^ 32 : Int) ≤ f.height) →
      encodeExtended sink clevel cR cmp (Img.fresh f) md =
        some { out := [], wcount := 0,
               err := some (Err.format "invalid image size") }) ∧
    (∀ f : FreshImg, f.width = 1 → f.height = 1 →
      ∃ s', encodeExtended okSink clevel cR cmp (Img.fresh f) none = some s' ∧
        s'.out.take 8 = pngHeaderBytes) ∧
    (∀ (ihdr : List Nat) (plte trns idat : Option (List Nat)) (s' : EncState),
      encodeExtended sink clevel cR cmp (Img.deferredImg ihdr plte trns idat)
          none = some s' →
      ∀ msg, s'.err ≠ some (Err.format msg)) := by
  refine ⟨?_, ?_, ?_⟩
  · intro f md hv
    simp only [encodeExtended]
    rw [if_pos hv]
  · intro f h1 h2
    simp only [encodeExtended]
    rw [if_neg (by rw [h1, h2]; norm_num), encodeBody_fresh_none_eq]
    refine ⟨_, rfl, ?_⟩
    obtain ⟨eh, oh⟩ := sinkWrite_ok pngHeaderBytes (Eq.refl initState.err)
    obtain ⟨t1, e1⟩ := writeChunk_out_ext okSink
      (sinkWrite okSink initState pngHeaderBytes) (ihdrPayload f) nIHDR
    obtain ⟨t2, e2⟩ := bodyTail_out_ext okSink clevel cR (Img.fresh f) none
      (writeChunk okSink (sinkWrite okSink initState pngHeaderBytes)
        (ihdrPayload f) nIHDR)
    rw [e2, e1, oh]
    have hil : (initState.out ++ pngHeaderBytes : List Nat) = pngHeaderBytes := by
      simp [initState]
    rw [hil, List.append_assoc]
    have hlh : (pngHeaderBytes : List Nat).length = 8 := rfl
    rw [← hlh, List.take_left]
  · intro ihdr plte trns idat s' hd msg hcontra
    simp only [encodeExtended, encodeBody_deferred_none_eq] at hd
    obtain rfl := Option.some.inj hd
    have h1 := bodyTail_deferred_format_stable hcontra
    have h2 := writeChunk_format_stable h1
    have h3 := sinkWrite_format_stable h2
    simp [initState] at h3

theorem C7_witness :
    encodeExtended okSink 0 (fun rs => rs) (fun v => v) (Img.fresh zeroWidthImg)
        none =
      some { out := [], wcount := 0,
             err := some (Err.format "invalid image size") } ∧
    (∃ s', encodeExtended okSink 0 (fun rs => rs) (fun v => v)
        (Img.fresh grayOpaqueImg) none = some s' ∧
      s'.out.take 8 = pngHeaderBytes) ∧
    ((encodeExtended okSink 0 (fun rs => rs) (fun v => v)
        (Img.deferredImg [0, 0, 0, 0] none none none) none).getD initState).err ≠
      some (Err.format "x") := by
  refine ⟨?_, ?_, ?_⟩
  · exact (C7_dimension_validation okSink 0 (fun rs => rs) (fun v => v)).1
      zeroWidthImg none (by decide)
  · exact (C7_dimension_validation okSink 0 (fun rs => rs) (fun v => v)).2.1
      grayOpaqueImg rfl rfl
  · exact (C7_dimension_validation okSink 0 (fun rs => rs) (fun v => v)).2.2
      [0, 0, 0, 0] none none none _ (by rfl) "x"

/-- C8: every successful non-deferred encode writes exactly the PNG signature,
IHDR, the metadata chunks in the fixed order gAMA, cHRM, sRGB, tIME, iCCP,
pHYs, XMP-as-iTXt, the ordered text entries (tEXt/zTXt/iTXt per declared
type), PLTE followed by tRNS for paletted images, hIST when histogram
metadata is present, the IDAT chunks, and IEND — with no reordering. -/
theorem C8_chunk_order (sink : Nat → Bool) (clevel : Int)
    (cR : List (List Nat) → List (List Nat)) (cmp : List Nat → List Nat)
    (f : FreshImg) (md : Option Metadata) (s' : EncState)
    (hd : encodeExtended sink clevel cR cmp (Img.fresh f) md = some s')
    (he : s'.err = none) :
    s'.out = pngHeaderBytes ++ chunkBytes nIHDR (ihdrPayload f) ++
      mdOptBytes cmp md ++ palChunkBytes f ++ histBytes md ++
      idatChunkBytes clevel cR f ++ chunkBytes nIEND [] := by
  simp only [encodeExtended] at hd
  by_cases hv : f.width ≤ 0 ∨ f.height ≤ 0 ∨ (2 ^ 32 : Int) ≤ f.width ∨
      (2 ^ 32 : Int) ≤ f.height
  · rw [if_pos hv] at hd
    obtain rfl := Option.some.inj hd
    simp at he
  · rw [if_neg hv] at hd
    obtain ⟨h1, h2⟩ := encodeBody_fresh_success hd he
    obtain ⟨h3, h4⟩ := sinkWrite_err_none h1
    rw [h2, h4]
    simp [initState, List.append_assoc]

theorem C8_witness :
    (encodeExtended okSink 0 (fun _ => [[1]]) (fun v => v)
        (Img.fresh grayOpaqueImg) none).isSome = true ∧
    ((encodeExtended okSink 0 (fun _ => [[1]]) (fun v => v)
        (Img.fresh grayOpaqueImg) none).getD initState).err = none ∧
    ((encodeExtended okSink 0 (fun _ => [[1]]) (fun v => v)
        (Img.fresh grayOpaqueImg) none).getD initState).out =
      pngHeaderBytes ++ chunkBytes nIHDR (ihdrPayload grayOpaqueImg) ++
        mdOptBytes (fun v => v) none ++ palChunkBytes grayOpaqueImg ++
        histBytes none ++ idatChunkBytes 0 (fun _ => [[1]]) grayOpaqueImg ++
        chunkBytes nIEND [] := by
  refine ⟨by decide, by decide, ?_⟩
  exact C8_chunk_order okSink 0 (fun _ => [[1]]) (fun v => v) grayOpaqueImg none
    ((encodeExtended okSink 0 (fun _ => [[1]]) (fun v => v)
        (Img.fresh grayOpaqueImg) none).getD initState) (by rfl) (by decide)

end PngWriter
